import Mathlib

/-!
Content loader (scripts/content-loader.js)

A shallow embedding of the `CISL` object and of the `DOMContentLoaded`
handler of `scripts/content-loader.js`.

* JavaScript strings are Lean strings; template literals are written out as
  concatenations of their literal pieces (whitespace included) and the
  interpolated expressions.
* The page is the list of its elements in document order.  A node carries its
  `id`, the markup last assigned to it (`innerHTML`), its `style.display` and
  its depth in the tree, so that the descendants of an element are the
  elements that follow it for as long as they are deeper.  Assigning
  `innerHTML` removes the descendants of the element and puts in their place
  the elements that the HTML parser of the browser creates from the markup;
  the parser is a parameter of the operations.
* An `async` method is a state transformer on `World` that ends in a
  completion: normal, or a thrown error (a rejected promise).
* The result of reading one resource is a `NetOutcome`; the decoded body is
  typed by the record shape the renderer reads from it.
-/

namespace CISL

/-! ## Completions and the world -/

/-- An error value: the constructor name and the message. -/
structure JsError where
  name : String
  message : String
deriving DecidableEq, Repr

/-- How a call ends: it returns a value, or an error escapes to the caller. -/
inductive Completion (α : Type) where
  | normal (value : α)
  | throw (error : JsError)
deriving DecidableEq, Repr

/-- An element of the page: its `id`, the markup of its content, its
`style.display`, and the number of its ancestors. -/
structure Node where
  id : String
  innerHTML : String
  display : String
  depth : Nat
deriving DecidableEq, Repr

/-- The HTML parser of the browser: the elements that a markup creates, in
document order, with depths counted from the container (a child has depth 0). -/
abbrev Parser : Type := String → List Node

/-- The observable state: the page, the lines sent to `console.error` (message
and error object), and the locations read with `fetch`. -/
structure World where
  page : List Node
  console : List (String × JsError)
  requests : List String
deriving DecidableEq, Repr

/-- A stateful computation that may throw. -/
abbrev JS (α : Type) : Type := World → Completion α × World

/-! ## Record shapes read by the renderers -/

/-- An entry of `news.json`. -/
structure NewsItem where
  date : String
  text : String
deriving DecidableEq, Repr

/-- The optional `links` object of a person. -/
structure Links where
  linkedin : Option String
deriving DecidableEq, Repr

/-- A person of `people.json`. -/
structure PersonRecord where
  name : String
  photo : String
  keywords : String
  links : Option Links
deriving DecidableEq, Repr

/-- The value of `people.json`: three optional groups. -/
structure PeopleData where
  leads : Option (List PersonRecord)
  fellows : Option (List PersonRecord)
  alumni : Option (List PersonRecord)
deriving DecidableEq, Repr

/-- An entry of `projects.json`. -/
structure ProjectRecord where
  title : String
  description : String
  status : String
  keywords : List String
deriving DecidableEq, Repr

/-- An entry of `research.json`. -/
structure ResearchArea where
  title : String
  subtitle : String
  description : String
  keywords : List String
deriving DecidableEq, Repr

/-- An entry of `opportunities.json`; every field after `status` is optional. -/
structure OpportunityRecord where
  title : String
  description : String
  status : String
  background : Option String
  commitment : Option String
  benefits : Option (List String)
  screeningQuestions : Option (List String)
  downloadFile : Option String
deriving DecidableEq, Repr

/-! ## The network -/

/-- The result of `response.json()`: a parse failure, or the decoded value
(`none` is the JSON value `null`). -/
inductive Body (α : Type) where
  | parseError (error : JsError)
  | json (value : Option α)
deriving DecidableEq, Repr

/-- The result of `fetch(url)`: the promise rejects (transport failure), or a
response arrives with its `ok` flag and its body. -/
inductive NetOutcome (α : Type) where
  | rejected (error : JsError)
  | response (ok : Bool) (body : Body α)
deriving DecidableEq, Repr

/-- What each of the five resources answers. -/
structure Net where
  news : NetOutcome (List NewsItem)
  people : NetOutcome PeopleData
  projects : NetOutcome (List ProjectRecord)
  research : NetOutcome (List ResearchArea)
  opportunities : NetOutcome (List OpportunityRecord)
deriving DecidableEq, Repr

/-! ## Strings and the page -/

/-- The method `Array.prototype.join('')` on an array of strings. -/
def join : List String → String
  | [] => ""
  | s :: rest => s ++ join rest

/-- Truthiness of an optional string field: present and not the empty string. -/
def truthy : Option String → Bool
  | none => false
  | some s => s != ""

/-- The text that a template literal inserts for an optional string field. -/
def interpolate : Option String → String
  | none => "undefined"
  | some s => s

/-- The first node of the page with the given `id`, as its index. -/
def firstWithId : List Node → String → Option Nat
  | [], _ => none
  | n :: rest, id => if n.id = id then some 0 else (firstWithId rest id).map (· + 1)

/-- The call `document.getElementById(id)`: the first element, in document
order, whose identifier is `id`, as its index in the page.  An element whose
`id` is the empty string has no identifier, so nothing is found for `""`. -/
def getElementById (page : List Node) (id : String) : Option Nat :=
  if id = "" then none else firstWithId page id

/-- The elements that follow the descendants of an element of the given depth:
the descendants are the leading elements that are deeper. -/
def afterSubtree (depth : Nat) : List Node → List Node
  | [] => []
  | n :: rest => if n.depth > depth then afterSubtree depth rest else n :: rest

/-- The elements that the parser creates from a markup, placed under a container
of the given depth. -/
def childrenOf (parse : Parser) (html : String) (depth : Nat) : List Node :=
  (parse html).map (fun m => { m with depth := m.depth + depth + 1 })

/-- The page after the content of the element at an index is replaced: the
element keeps its place, its descendants are removed, and the elements created
from the markup take their place. -/
def replaceContent (parse : Parser) (html : String) : Nat → List Node → List Node
  | _, [] => []
  | 0, n :: rest =>
    { n with innerHTML := html } :: (childrenOf parse html n.depth ++ afterSubtree n.depth rest)
  | i + 1, n :: rest => n :: replaceContent parse html i rest

/-- The assignment `element.innerHTML = html`. -/
def setInnerHTML (parse : Parser) (element : Nat) (html : String) (w : World) : World :=
  { w with page := replaceContent parse html element w.page }

/-- The index of the last element of a list that is less deep than `depth`. -/
def lastShallower (depth : Nat) : List Node → Option Nat
  | [] => none
  | n :: rest =>
    match lastShallower depth rest with
    | some j => some (j + 1)
    | none => if n.depth < depth then some 0 else none

/-- The property `element.parentElement`: the nearest preceding element that is
less deep; `none` is `null`. -/
def parentElement (page : List Node) (element : Nat) : Option Nat :=
  match page[element]? with
  | none => none
  | some n => lastShallower n.depth (page.take element)

/-- The assignment `element.style.display = value`. -/
def setDisplay (element : Nat) (value : String) (w : World) : World :=
  { w with page := w.page.modify (fun n => { n with display := value }) element }

/-! ## The `CISL` object -/

/-- The property `CISL.dataPath`. -/
def dataPath : String := "data"

/-- The method `CISL.fetchData`. -/
def fetchData {α : Type} (filename : String) (outcome : NetOutcome α) : JS (Option α) :=
  fun w =>
    let w1 := { w with requests := w.requests ++ [dataPath ++ "/" ++ filename] }
    -- try
    let attempt : Completion (Option α) :=
      match outcome with
      | .rejected e => .throw e
      | .response ok body =>
        if !ok then .throw ⟨"Error", "Failed to load " ++ filename⟩
        else
          match body with
          | .parseError e => .throw e
          | .json v => .normal v
    -- catch (error)
    match attempt with
    | .normal v => (.normal v, w1)
    | .throw error =>
      (.normal none,
        { w1 with console := w1.console ++ [("Error loading " ++ filename ++ ":", error)] })

/-- The template of one news item in `loadNews`. -/
def newsItemHTML (item : NewsItem) : String :=
  "\n            <div class=\"news-ticker__item\">\n                <span class=\"news-ticker__date\">"
    ++ item.date
    ++ "</span>\n                <span class=\"news-ticker__text\">"
    ++ item.text
    ++ "</span>\n            </div>\n        "

/-- The method `CISL.loadNews`. -/
def loadNews (parse : Parser) (net : Net) (containerId : String) : JS Unit := fun w =>
  match getElementById w.page containerId with
  | none => (.normal (), w)
  | some container =>
    match fetchData "news.json" net.news w with
    | (.throw e, w1) => (.throw e, w1)
    | (.normal none, w1) => (.normal (), w1)
    | (.normal (some news), w1) =>
      (.normal (), setInnerHTML parse container (join (news.map newsItemHTML)) w1)

/-- The anchor built by `renderPersonCard` for a LinkedIn address. -/
def linkedinAnchor (url : String) : String :=
  "<a href=\"" ++ url
    ++ "\" target=\"_blank\" rel=\"noopener\" class=\"person__linkedin\">LinkedIn</a>"

/-- The local `linkedinHTML` of `renderPersonCard`. -/
def linkedinHTML (person : PersonRecord) : String :=
  if truthy (person.links.bind (·.linkedin)) then
    linkedinAnchor (interpolate (person.links.bind (·.linkedin)))
  else ""

/-- The method `CISL.renderPersonCard`. -/
def renderPersonCard (person : PersonRecord) (isLead : Bool) : String :=
  "\n            <div class=\"person "
    ++ (if isLead then "person--lead" else "person--fellow")
    ++ " card-accent\">\n                <img src=\""
    ++ person.photo
    ++ "\" alt=\""
    ++ person.name
    ++ "\" class=\"person__photo\">\n                <div class=\"person__name\">"
    ++ person.name
    ++ "</div>\n                <div class=\"person__keywords\">"
    ++ person.keywords
    ++ "</div>\n                "
    ++ linkedinHTML person
    ++ "\n            </div>\n        "

/-- The first rendering step of `loadPeople` (Render Research Leads), run after
the fetch succeeded. -/
def renderLeads (parse : Parser) (data : PeopleData) (leadsId : String) (w : World) : World :=
  match getElementById w.page leadsId, data.leads with
  | some leadsContainer, some leads =>
    setInnerHTML parse leadsContainer
      (join (leads.map (fun person => renderPersonCard person true))) w
  | _, _ => w

/-- The second rendering step of `loadPeople` (Render Research Fellows). -/
def renderFellows (parse : Parser) (data : PeopleData) (fellowsId : String) (w : World) :
    World :=
  match getElementById w.page fellowsId, data.fellows with
  | some fellowsContainer, some fellows =>
    setInnerHTML parse fellowsContainer
      (join (fellows.map (fun person => renderPersonCard person false))) w
  | _, _ => w

/-- The third rendering step of `loadPeople` (Render Alumni): the content is
assigned first, then the `display` of the parent element; the latter throws a
`TypeError` when `parentElement` is `null`. -/
def renderAlumni (parse : Parser) (data : PeopleData) (alumniId : String) : JS Unit := fun w =>
  match getElementById w.page alumniId, data.alumni with
  | some alumniContainer, some alumni =>
    if alumni.length > 0 then
      let w1 := setInnerHTML parse alumniContainer
        (join (alumni.map (fun person => renderPersonCard person false))) w
      match parentElement w1.page alumniContainer with
      | none => (.throw ⟨"TypeError", "parentElement is null"⟩, w1)
      | some parent => (.normal (), setDisplay parent "block" w1)
    else (.normal (), w)
  | _, _ => (.normal (), w)

/-- The method `CISL.loadPeople`. -/
def loadPeople (parse : Parser) (net : Net) (leadsId fellowsId alumniId : String) : JS Unit :=
  fun w =>
  match fetchData "people.json" net.people w with
  | (.throw e, w1) => (.throw e, w1)
  | (.normal none, w1) => (.normal (), w1)
  | (.normal (some data), w1) =>
    renderAlumni parse data alumniId
      (renderFellows parse data fellowsId (renderLeads parse data leadsId w1))

/-- The keyword tag of `loadProjects` and `loadResearch`. -/
def keywordTag (k : String) : String := "<span>" ++ k ++ "</span>"

/-- The template of one project in `loadProjects`. -/
def projectHTML (project : ProjectRecord) : String :=
  "\n            <article class=\"project-card card-accent fade-in\">\n                <div class=\"project-card__header\">\n                    <h3>"
    ++ project.title
    ++ "</h3>\n                    <span class=\"project-card__status project-card__status--"
    ++ project.status
    ++ "\">"
    ++ project.status
    ++ "</span>\n                </div>\n                <p>"
    ++ project.description
    ++ "</p>\n                <div class=\"project-card__keywords\">\n                    "
    ++ join (project.keywords.map keywordTag)
    ++ "\n                </div>\n            </article>\n        "

/-- The method `CISL.loadProjects`. -/
def loadProjects (parse : Parser) (net : Net) (containerId : String) : JS Unit := fun w =>
  match getElementById w.page containerId with
  | none => (.normal (), w)
  | some container =>
    match fetchData "projects.json" net.projects w with
    | (.throw e, w1) => (.throw e, w1)
    | (.normal none, w1) => (.normal (), w1)
    | (.normal (some projects), w1) =>
      (.normal (), setInnerHTML parse container (join (projects.map projectHTML)) w1)

/-- The template of one research area in `loadResearch`. -/
def researchHTML (area : ResearchArea) : String :=
  "\n            <article class=\"research-area fade-in\">\n                <h3>"
    ++ area.title
    ++ "</h3>\n                <p class=\"research-area__subtitle\">"
    ++ area.subtitle
    ++ "</p>\n                <p>"
    ++ area.description
    ++ "</p>\n                <div class=\"research-area__keywords\">\n                    "
    ++ join (area.keywords.map keywordTag)
    ++ "\n                </div>\n            </article>\n        "

/-- The method `CISL.loadResearch`. -/
def loadResearch (parse : Parser) (net : Net) (containerId : String) : JS Unit := fun w =>
  match getElementById w.page containerId with
  | none => (.normal (), w)
  | some container =>
    match fetchData "research.json" net.research w with
    | (.throw e, w1) => (.throw e, w1)
    | (.normal none, w1) => (.normal (), w1)
    | (.normal (some research), w1) =>
      (.normal (), setInnerHTML parse container (join (research.map researchHTML)) w1)

/-- The list item of the benefits and screening-questions lists. -/
def listItem (b : String) : String := "<li>" ++ b ++ "</li>"

/-- The block gated by `opp.background`. -/
def backgroundBlock (opp : OpportunityRecord) : String :=
  if truthy opp.background then
    "\n                    <h4>Preferred Background</h4>\n                    <p>"
      ++ interpolate opp.background ++ "</p>\n                "
  else ""

/-- The block gated by `opp.commitment`. -/
def commitmentBlock (opp : OpportunityRecord) : String :=
  if truthy opp.commitment then
    "\n                    <h4>Time Commitment</h4>\n                    <p>"
      ++ interpolate opp.commitment ++ "</p>\n                "
  else ""

/-- The block gated by `opp.benefits && opp.benefits.length > 0`. -/
def benefitsBlock (opp : OpportunityRecord) : String :=
  match opp.benefits with
  | some benefits =>
    if benefits.length > 0 then
      "\n                    <h4>What You\x27ll Gain</h4>\n                    <ul>\n                        "
        ++ join (benefits.map listItem)
        ++ "\n                    </ul>\n                "
    else ""
  | none => ""

/-- The block gated by `opp.screeningQuestions && opp.screeningQuestions.length > 0`. -/
def screeningBlock (opp : OpportunityRecord) : String :=
  match opp.screeningQuestions with
  | some screeningQuestions =>
    if screeningQuestions.length > 0 then
      "\n                    <div class=\"screening-questions\">\n                        <h4>Screening Questions</h4>\n                        <ol>\n                            "
        ++ join (screeningQuestions.map listItem)
        ++ "\n                        </ol>\n                    </div>\n                "
    else ""
  | none => ""

/-- The block gated by `opp.downloadFile`. -/
def downloadBlock (opp : OpportunityRecord) : String :=
  if truthy opp.downloadFile then
    "\n                    <div style=\"margin-top: var(--space-xl);\">\n                        <a href=\""
      ++ interpolate opp.downloadFile
      ++ "\" download class=\"download-btn\">Download Job Description</a>\n                    </div>\n                "
  else ""

/-- The template of one opportunity in `loadOpportunities`. -/
def opportunityHTML (opp : OpportunityRecord) : String :=
  "\n            <div class=\"opportunity-card\">\n                <h3>"
    ++ opp.title
    ++ " <span class=\"status-badge status-badge--"
    ++ opp.status
    ++ "\">"
    ++ opp.status
    ++ "</span></h3>\n                <p>"
    ++ opp.description
    ++ "</p>\n                \n                "
    ++ backgroundBlock opp
    ++ "\n                \n                "
    ++ commitmentBlock opp
    ++ "\n                \n                "
    ++ benefitsBlock opp
    ++ "\n                \n                "
    ++ screeningBlock opp
    ++ "\n                \n                "
    ++ downloadBlock opp
    ++ "\n            </div>\n        "

/-- The method `CISL.loadOpportunities`. -/
def loadOpportunities (parse : Parser) (net : Net) (containerId : String) : JS Unit := fun w =>
  match getElementById w.page containerId with
  | none => (.normal (), w)
  | some container =>
    match fetchData "opportunities.json" net.opportunities w with
    | (.throw e, w1) => (.throw e, w1)
    | (.normal none, w1) => (.normal (), w1)
    | (.normal (some opportunities), w1) =>
      (.normal (), setInnerHTML parse container (join (opportunities.map opportunityHTML)) w1)

/-! ## The `DOMContentLoaded` handler -/

/-- The method `String.prototype.split` with a one-character separator. -/
def split (sep : Char) : List Char → List (List Char)
  | [] => [[]]
  | c :: cs =>
    if c = sep then [] :: split sep cs
    else
      match split sep cs with
      | [] => [[c]]
      | seg :: segs => (c :: seg) :: segs

/-- The expression `pathname.split('/').pop() || 'index.html'`. -/
def currentPage (pathname : String) : String :=
  match (split '/' pathname.data).getLast? with
  | none => "index.html"
  | some seg => if seg = [] then "index.html" else String.mk seg

/-- A call of a rendering operation, with its arguments. -/
inductive Call where
  | loadNews (containerId : String)
  | loadPeople (leadsId fellowsId alumniId : String)
  | loadProjects (containerId : String)
  | loadResearch (containerId : String)
  | loadOpportunities (containerId : String)
deriving DecidableEq, Repr

/-- One `case` clause of a `switch`: its label, the calls of its body, and
whether the body ends in `break`. -/
structure Case where
  label : String
  body : List Call
  breaks : Bool
deriving DecidableEq, Repr

/-- The clauses of the handler, in source order. -/
def handlerCases : List Case :=
  [ ⟨"about.html", [], false⟩,
    ⟨"index.html", [.loadNews "news-content"], true⟩,
    ⟨"people.html", [.loadPeople "leads-content" "fellows-content" "alumni-content"], true⟩,
    ⟨"projects.html", [.loadProjects "projects-content"], true⟩,
    ⟨"research.html", [.loadResearch "research-content"], true⟩,
    ⟨"opportunities.html", [.loadOpportunities "opportunities-content"], true⟩ ]

/-- Execution from a clause on: the bodies up to the first `break`. -/
def runFrom : List Case → List Call
  | [] => []
  | c :: rest => if c.breaks then c.body else c.body ++ runFrom rest

/-- The statement `switch (page)`: the first clause whose label is strictly
equal to the page is entered. -/
def switch (page : String) : List Case → List Call
  | [] => []
  | c :: rest => if page = c.label then runFrom (c :: rest) else switch page rest

/-- The calls made by the handler for a `window.location.pathname`. -/
def dispatch (pathname : String) : List Call :=
  switch (currentPage pathname) handlerCases

/-- Running one call. -/
def Call.run (parse : Parser) (net : Net) : Call → JS Unit
  | .loadNews containerId => CISL.loadNews parse net containerId
  | .loadPeople leadsId fellowsId alumniId =>
    CISL.loadPeople parse net leadsId fellowsId alumniId
  | .loadProjects containerId => CISL.loadProjects parse net containerId
  | .loadResearch containerId => CISL.loadResearch parse net containerId
  | .loadOpportunities containerId => CISL.loadOpportunities parse net containerId

/-- Running calls one after the other; a rejected promise of an un-awaited call
does not stop the handler. -/
def runCalls (parse : Parser) (net : Net) : List Call → World → World
  | [], w => w
  | c :: rest, w => runCalls parse net rest (c.run parse net w).2

/-- The handler registered for `DOMContentLoaded`. -/
def onDOMContentLoaded (parse : Parser) (net : Net) (pathname : String) (w : World) : World :=
  runCalls parse net (dispatch pathname) w

/-! ## Observations used in the statements -/

/-- The content slot of the element that `getElementById` finds for an id. -/
def contentOf (page : List Node) (id : String) : Option String :=
  match getElementById page id with
  | none => none
  | some i => page[i]?.map (·.innerHTML)

/-- The `style.display` of the node at an index. -/
def displayOf (page : List Node) (i : Nat) : Option String :=
  page[i]?.map (·.display)

/-- The world as the leads step of `loadPeople` leaves it (line 46), after a
fetch that returned `data`. -/
def afterLeads (parse : Parser) (net : Net) (data : PeopleData) (leadsId : String)
    (w : World) : World :=
  renderLeads parse data leadsId (fetchData "people.json" net.people w).2

/-- The world as the fellows step of `loadPeople` leaves it (line 52). -/
def afterFellows (parse : Parser) (net : Net) (data : PeopleData) (leadsId fellowsId : String)
    (w : World) : World :=
  renderFellows parse data fellowsId (afterLeads parse net data leadsId w)

/-- A node of a later page is kept or created: it has the `id` and the `display`
of a node of the earlier page, or of an element that the parser creates from
some markup. -/
def keptOrCreated (parse : Parser) (before : List Node) (n : Node) : Prop :=
  (∃ m ∈ before, m.id = n.id ∧ m.display = n.display) ∨
  (∃ html, ∃ m ∈ parse html, m.id = n.id ∧ m.display = n.display)

/-- Whether the characters `pat` begin the text `s`. -/
def startsWith : List Char → List Char → Bool
  | [], _ => true
  | _ :: _, [] => false
  | p :: ps, c :: cs => decide (p = c) && startsWith ps cs

/-- The number of positions of `s` at which `pat` begins. -/
def occurrences (pat : List Char) : List Char → Nat
  | [] => 0
  | c :: cs => (if startsWith pat (c :: cs) then 1 else 0) + occurrences pat cs

/-- The number of occurrences of the text `pat` in the markup `s`. -/
def count (pat s : String) : Nat := occurrences pat.data s.data

/-- A text without the character that opens a tag. -/
def plain (s : String) : Prop := '<' ∉ s.data

instance (s : String) : Decidable (plain s) := by
  unfold plain; exact inferInstance

/-! ## Auxiliary definitions of the statements and sample data -/

/-- A page with one container for each rendering operation; the alumni
container sits in a hidden section. -/
def samplePage : List Node :=
  [ ⟨"main", "", "", 0⟩,
    ⟨"news-content", "old news", "", 1⟩,
    ⟨"leads-content", "old leads", "", 1⟩,
    ⟨"fellows-content", "old fellows", "", 1⟩,
    ⟨"alumni-section", "", "none", 1⟩,
    ⟨"alumni-content", "old alumni", "", 2⟩,
    ⟨"projects-content", "old projects", "", 1⟩,
    ⟨"research-content", "old research", "", 1⟩,
    ⟨"opportunities-content", "old opportunities", "", 1⟩ ]

/-- A stand-in for the parser on markup that names no `id`: every non-empty
markup creates one element without `id`. -/
def sampleParser : Parser := fun html => if html = "" then [] else [⟨"", "", "", 0⟩]

/-- A page whose fellows target and alumni section lie inside the leads
container. -/
def nestedPage : List Node :=
  [ ⟨"main", "", "", 0⟩,
    ⟨"leads-content", "old leads", "", 1⟩,
    ⟨"fellows-content", "old fellows", "", 2⟩,
    ⟨"alumni-section", "", "none", 2⟩,
    ⟨"alumni-content", "old alumni", "", 3⟩ ]

/-- The nested page before anything was logged or read. -/
def nestedWorld : World := ⟨nestedPage, [], []⟩

/-- A page whose only element, the document element, is the alumni target. -/
def rootWorld : World := ⟨[⟨"alumni-content", "", "", 0⟩], [], []⟩

/-- The sample page before anything was logged or read. -/
def sampleWorld : World := ⟨samplePage, [], []⟩

/-- A network on which every resource answers with a non-success status. -/
def failingNet : Net :=
  ⟨.response false (.parseError ⟨"SyntaxError", "Unexpected token"⟩),
   .response false (.parseError ⟨"SyntaxError", "Unexpected token"⟩),
   .response false (.parseError ⟨"SyntaxError", "Unexpected token"⟩),
   .response false (.parseError ⟨"SyntaxError", "Unexpected token"⟩),
   .response false (.parseError ⟨"SyntaxError", "Unexpected token"⟩)⟩

/-- A network whose news resource answers with two items. -/
def newsNet : Net :=
  { failingNet with
    news := .response true (.json (some [⟨"2024-01-05", "Lab opens"⟩, ⟨"2024-02-01", "First paper"⟩])) }

/-- A world whose page has no element at all. -/
def emptyWorld : World := ⟨[], [], []⟩

/-- The content part of a node, which no assignment to `style.display` changes. -/
def contents (n : Node) : String × String := (n.id, n.innerHTML)

/-- Whether a group is present in the resource and holds at least one person:
the test `data.alumni && data.alumni.length > 0`. -/
def nonEmptyGroup : Option (List PersonRecord) → Bool
  | some (_ :: _) => true
  | _ => false

/-- A person of the sample resources. -/
def personA : PersonRecord := ⟨"A", "a.jpg", "Robotics", none⟩

/-- A person of the sample resources. -/
def personB : PersonRecord := ⟨"B", "b.jpg", "Vision", none⟩

/-- A people resource with one lead, no fellow and no alumni. -/
def peopleNoAlumni : PeopleData := ⟨some [personA], some [], some []⟩

/-- A people resource with one lead, no fellow and one alumni. -/
def peopleWithAlumni : PeopleData := ⟨some [personA], some [], some [personB]⟩

/-- A people resource with one lead, one fellow and no alumni group. -/
def peopleWithFellow : PeopleData := ⟨some [personA], some [personB], none⟩

/-- A network whose people resource answers with the given value. -/
def peopleNet (data : PeopleData) : Net :=
  { failingNet with people := .response true (.json (some data)) }

/-- Whether comparing `pat` with the start of `t` is settled inside `t`: a
mismatch or a complete match is met before `t` runs out. -/
def settled : List Char → List Char → Bool
  | [], _ => true
  | _ :: _, [] => false
  | p :: ps, c :: cs => if p = c then settled ps cs else true

/-- Whether the comparison is settled at every position of `lit`. -/
def allSettled (pat : List Char) : List Char → Bool
  | [] => true
  | c :: cs => settled pat (c :: cs) && allSettled pat cs

/-- A present field holds a text without the character that opens a tag. -/
def plainField (field : Option String) : Prop := ∀ s, field = some s → plain s

/-- The texts of a present list are without the character that opens a tag. -/
def plainItems (field : Option (List String)) : Prop :=
  ∀ l, field = some l → ∀ b ∈ l, plain b

/-- The record of the example in the description of `renderPersonCard`. -/
def jane : PersonRecord := ⟨"Jane Doe", "x.jpg", "AI", some ⟨some "https://li/jane"⟩⟩

/-- The same record without `links`. -/
def janeNoLinks : PersonRecord := ⟨"Jane Doe", "x.jpg", "AI", none⟩

/-- The same record with a `linkedin` field that is the empty string. -/
def janeEmptyLink : PersonRecord := ⟨"Jane Doe", "x.jpg", "AI", some ⟨some ""⟩⟩

/-- A record without `links` whose name is itself the markup of a link. -/
def janeMarkupName : PersonRecord :=
  ⟨"<a href=\"https://li/x\" class=\"person__linkedin\">LinkedIn</a>", "x.jpg", "AI", none⟩

/-- A project with two keywords. -/
def sampleProject : ProjectRecord := ⟨"Rover", "A rover.", "active", ["AI", "Robotics"]⟩

/-- A research area without keywords. -/
def sampleArea : ResearchArea := ⟨"Vision", "Seeing", "How machines see.", []⟩

/-- A network whose projects and research resources answer with the samples. -/
def cardsNet : Net :=
  { failingNet with
    projects := .response true (.json (some [sampleProject]))
    research := .response true (.json (some [sampleArea])) }

/-- Whether a list field is present and holds at least one text: the test
`opp.benefits && opp.benefits.length > 0`. -/
def nonEmptyList : Option (List String) → Bool
  | some (_ :: _) => true
  | _ => false

/-- No text of the record contains the character that opens a tag. -/
structure PlainOpportunity (opp : OpportunityRecord) : Prop where
  title : plain opp.title
  status : plain opp.status
  description : plain opp.description
  background : plainField opp.background
  commitment : plainField opp.commitment
  benefits : plainItems opp.benefits
  screeningQuestions : plainItems opp.screeningQuestions
  downloadFile : plainField opp.downloadFile

/-- An opportunity whose `background` is present as the empty string. -/
def oppEmptyBackground : OpportunityRecord :=
  ⟨"Research intern", "Join the lab.", "open", some "", none, none, none, none⟩

/-- The same opportunity without `background`. -/
def oppBare : OpportunityRecord :=
  ⟨"Research intern", "Join the lab.", "open", none, none, none, none, none⟩

/-- The same opportunity with two benefits. -/
def oppTwoBenefits : OpportunityRecord :=
  ⟨"Research intern", "Join the lab.", "open", none, none, some ["X", "Y"], none, none⟩

/-- An opportunity whose title contains the character `<` and whose `background`
is present. -/
def oppShortStay : OpportunityRecord :=
  ⟨"Intern (<6 months)", "Join the lab.", "open", some "Students", none, none, none, none⟩

/-- An opportunity without `benefits` whose description is itself the markup
of the benefits heading. -/
def oppMarkupDescription : OpportunityRecord :=
  ⟨"Research intern", "<h4>What You\x27ll Gain</h4>", "open", none, none, none, none, none⟩

/-! ## Lemmas and theorems -/

set_option maxRecDepth 20000

/-! ## Lemmas on the page -/

theorem map_modify_of_invariant {α β : Type} (f : α → β) (g : α → α)
    (h : ∀ a, f (g a) = f a) (l : List α) (n : Nat) :
    (l.modify g n).map f = l.map f := by
  apply List.ext_getElem?
  intro m
  simp only [List.getElem?_map, List.getElem?_modify]
  cases l[m]? with
  | none => rfl
  | some a =>
    by_cases hnm : n = m
    · simp [hnm, h]
    · simp [hnm]

theorem firstWithId_of_ids (page page' : List Node) (id : String)
    (h : page.map (·.id) = page'.map (·.id)) :
    firstWithId page id = firstWithId page' id := by
  induction page generalizing page' with
  | nil =>
    cases page' with
    | nil => rfl
    | cons b l => simp at h
  | cons a l ih =>
    cases page' with
    | nil => simp at h
    | cons b l' =>
      simp only [List.map_cons, List.cons.injEq] at h
      simp only [firstWithId, h.1, ih l' h.2]

theorem firstWithId_lt (page : List Node) (id : String) (i : Nat)
    (h : firstWithId page id = some i) : i < page.length := by
  induction page generalizing i with
  | nil => simp [firstWithId] at h
  | cons a l ih =>
    simp only [firstWithId] at h
    split at h
    · simp only [Option.some.injEq] at h
      subst h
      simp
    · cases hl : firstWithId l id with
      | none => simp [hl] at h
      | some j =>
        simp only [hl, Option.map_some', Option.some.injEq] at h
        subst h
        have := ih j hl
        simp only [List.length_cons]
        omega

theorem firstWithId_of_getElementById (page : List Node) (id : String) (c : Nat)
    (h : getElementById page id = some c) : id ≠ "" ∧ firstWithId page id = some c := by
  unfold getElementById at h
  split at h
  · cases h
  · rename_i hid
    exact ⟨hid, h⟩

theorem getElementById_of_ids (page page' : List Node) (id : String)
    (h : page.map (·.id) = page'.map (·.id)) :
    getElementById page id = getElementById page' id := by
  unfold getElementById
  rw [firstWithId_of_ids page page' id h]

theorem getElementById_lt (page : List Node) (id : String) (i : Nat)
    (h : getElementById page id = some i) : i < page.length :=
  firstWithId_lt page id i (firstWithId_of_getElementById page id i h).2

theorem fetchData_page {α : Type} (filename : String) (outcome : NetOutcome α) (w : World) :
    (fetchData filename outcome w).2.page = w.page := by
  unfold fetchData
  rcases outcome with e | ⟨ok, body⟩
  · rfl
  · cases ok
    · rfl
    · cases body <;> rfl

theorem fetchData_normal {α : Type} (filename : String) (outcome : NetOutcome α) (w : World) :
    ∃ v, (fetchData filename outcome w).1 = Completion.normal v := by
  unfold fetchData
  rcases outcome with e | ⟨ok, body⟩
  · exact ⟨none, rfl⟩
  · cases ok
    · exact ⟨none, rfl⟩
    · cases body with
      | parseError e => exact ⟨none, rfl⟩
      | json v => exact ⟨v, rfl⟩

/-! ## C1: the fetch boundary -/

/-- C1: `fetchData` always completes normally.  When the promise of `fetch`
rejects, when the response is not `ok`, and when the body does not parse, it
returns `null` and appends one line naming the file to the console; when the
response is `ok` and the body parses, it returns the parsed value and logs
nothing.  In every case the location `data/<filename>` is read and the page is
untouched. -/
theorem fetchData_contract {α : Type} (filename : String) (w : World) :
    (∀ outcome : NetOutcome α, ∃ v, (fetchData filename outcome w).1 = Completion.normal v) ∧
    (∀ e : JsError, fetchData filename (NetOutcome.rejected e : NetOutcome α) w =
      (Completion.normal none,
        { page := w.page,
          console := w.console ++ [("Error loading " ++ filename ++ ":", e)],
          requests := w.requests ++ ["data/" ++ filename] })) ∧
    (∀ body : Body α, fetchData filename (NetOutcome.response false body) w =
      (Completion.normal none,
        { page := w.page,
          console := w.console ++
            [("Error loading " ++ filename ++ ":", ⟨"Error", "Failed to load " ++ filename⟩)],
          requests := w.requests ++ ["data/" ++ filename] })) ∧
    (∀ e : JsError, fetchData filename (NetOutcome.response true (Body.parseError e) : NetOutcome α) w =
      (Completion.normal none,
        { page := w.page,
          console := w.console ++ [("Error loading " ++ filename ++ ":", e)],
          requests := w.requests ++ ["data/" ++ filename] })) ∧
    (∀ v : Option α, fetchData filename (NetOutcome.response true (Body.json v)) w =
      (Completion.normal v,
        { page := w.page,
          console := w.console,
          requests := w.requests ++ ["data/" ++ filename] })) := by
  refine ⟨fun outcome => fetchData_normal filename outcome w, ?_, ?_, ?_, ?_⟩
  · intro e; rfl
  · intro body; rfl
  · intro e; rfl
  · intro v; rfl

/-! ## Lemmas on the assignments -/

theorem getElem_replaceContent (parse : Parser) (html : String) (page : List Node) (c : Nat) :
    (replaceContent parse html c page)[c]?
      = page[c]?.map (fun n => { n with innerHTML := html }) := by
  induction page generalizing c with
  | nil => cases c <;> rfl
  | cons n rest ih =>
    cases c with
    | zero => simp [replaceContent]
    | succ i =>
      simp only [replaceContent, List.getElem?_cons_succ]
      exact ih i

theorem take_replaceContent (parse : Parser) (html : String) (page : List Node) (c : Nat) :
    (replaceContent parse html c page).take c = page.take c := by
  induction page generalizing c with
  | nil => cases c <;> rfl
  | cons n rest ih =>
    cases c with
    | zero => rfl
    | succ i =>
      simp only [replaceContent, List.take_succ_cons, ih i]

theorem firstWithId_replaceContent (parse : Parser) (html : String) (page : List Node)
    (id : String) (c : Nat) (h : firstWithId page id = some c) :
    firstWithId (replaceContent parse html c page) id = some c := by
  induction page generalizing c with
  | nil => simp [firstWithId] at h
  | cons n rest ih =>
    simp only [firstWithId] at h
    by_cases hid : n.id = id
    · simp only [hid, if_true, Option.some.injEq] at h
      subst h
      simp only [replaceContent, firstWithId, hid, if_true]
    · simp only [hid, if_false] at h
      cases hl : firstWithId rest id with
      | none => simp [hl] at h
      | some j =>
        simp only [hl, Option.map_some', Option.some.injEq] at h
        subst h
        simp only [replaceContent, firstWithId, hid, if_false, ih j hl, Option.map_some']

theorem getElementById_replaceContent (parse : Parser) (html : String) (page : List Node)
    (id : String) (c : Nat) (h : getElementById page id = some c) :
    getElementById (replaceContent parse html c page) id = some c := by
  obtain ⟨hid, hfirst⟩ := firstWithId_of_getElementById page id c h
  unfold getElementById
  rw [if_neg hid]
  exact firstWithId_replaceContent parse html page id c hfirst

theorem contentOf_setInnerHTML (parse : Parser) (c : Nat) (html : String) (w : World)
    (id : String) (h : getElementById w.page id = some c) :
    contentOf (setInnerHTML parse c html w).page id = some html := by
  unfold contentOf setInnerHTML
  simp only [getElementById_replaceContent parse html w.page id c h, getElem_replaceContent]
  rw [List.getElem?_eq_getElem (getElementById_lt _ _ _ h)]
  rfl

/-! ## C2: news -/

/-- C2: when the news target exists and the fetch of `news.json` returns a
sequence of items, `loadNews` completes normally and the content of the target
becomes the concatenation, in input order and with nothing in between, of one
fragment per item; the i-th fragment contains the date and then the text of the
i-th item, unmodified; for the empty sequence the content is the empty
string. -/
theorem loadNews_renders (parse : Parser) (net : Net) (containerId : String) (w : World)
    (items : List NewsItem)
    (htarget : (getElementById w.page containerId).isSome = true)
    (hfetch : (fetchData "news.json" net.news w).1 = Completion.normal (some items)) :
    (loadNews parse net containerId w).1 = Completion.normal () ∧
    contentOf (loadNews parse net containerId w).2.page containerId
      = some (join (items.map newsItemHTML)) ∧
    (items.map newsItemHTML).length = items.length ∧
    (∀ i (hi : i < items.length), ∃ a b c : String,
      (items.map newsItemHTML)[i]? = some (a ++ items[i].date ++ b ++ items[i].text ++ c)) ∧
    (items = [] → contentOf (loadNews parse net containerId w).2.page containerId = some "") := by
  obtain ⟨c, hc⟩ := Option.isSome_iff_exists.mp htarget
  rcases hf : fetchData "news.json" net.news w with ⟨r, w1⟩
  rw [hf] at hfetch
  simp only at hfetch
  subst hfetch
  have hpage : w1.page = w.page := by
    have := fetchData_page "news.json" net.news w
    rw [hf] at this
    exact this
  have hrun : loadNews parse net containerId w
      = (Completion.normal (), setInnerHTML parse c (join (items.map newsItemHTML)) w1) := by
    simp only [loadNews, hc, hf]
  have hcontent : contentOf (loadNews parse net containerId w).2.page containerId
      = some (join (items.map newsItemHTML)) := by
    rw [hrun]
    exact contentOf_setInnerHTML parse c _ w1 containerId (by rw [hpage]; exact hc)
  refine ⟨by rw [hrun], hcontent, by simp, ?_, ?_⟩
  · intro i hi
    refine ⟨"\n            <div class=\"news-ticker__item\">\n                <span class=\"news-ticker__date\">",
      "</span>\n                <span class=\"news-ticker__text\">",
      "</span>\n            </div>\n        ", ?_⟩
    rw [List.getElem?_map, List.getElem?_eq_getElem hi]
    rfl
  · intro hnil
    rw [hcontent, hnil]
    rfl

/-- Witness of C2 on the sample page with two news items. -/
theorem loadNews_renders_witness :
    (getElementById sampleWorld.page "news-content").isSome = true ∧
    contentOf (loadNews sampleParser newsNet "news-content" sampleWorld).2.page "news-content"
      = some (join ([⟨"2024-01-05", "Lab opens"⟩, ⟨"2024-02-01", "First paper"⟩].map newsItemHTML)) :=
  ⟨by decide, (loadNews_renders sampleParser newsNet "news-content" sampleWorld
    [⟨"2024-01-05", "Lab opens"⟩, ⟨"2024-02-01", "First paper"⟩] (by decide) (by rfl)).2.1⟩

/-! ## C3: a null fetch leaves the page alone -/

theorem fetchData_snd_page {α : Type} (filename : String) (outcome : NetOutcome α)
    (w w1 : World) (r : Completion (Option α)) (h : fetchData filename outcome w = (r, w1)) :
    w1.page = w.page := by
  have := fetchData_page filename outcome w
  rw [h] at this
  exact this

theorem loadNews_null (parse : Parser) (net : Net) (containerId : String) (w : World)
    (h : (fetchData "news.json" net.news w).1 = Completion.normal none) :
    (loadNews parse net containerId w).1 = Completion.normal () ∧
      (loadNews parse net containerId w).2.page = w.page := by
  unfold loadNews
  cases getElementById w.page containerId with
  | none => exact ⟨rfl, rfl⟩
  | some c =>
    rcases hf : fetchData "news.json" net.news w with ⟨r, w1⟩
    rw [hf] at h
    simp only at h
    subst h
    exact ⟨rfl, fetchData_snd_page _ _ _ _ _ hf⟩

theorem loadProjects_null (parse : Parser) (net : Net) (containerId : String) (w : World)
    (h : (fetchData "projects.json" net.projects w).1 = Completion.normal none) :
    (loadProjects parse net containerId w).1 = Completion.normal () ∧
      (loadProjects parse net containerId w).2.page = w.page := by
  unfold loadProjects
  cases getElementById w.page containerId with
  | none => exact ⟨rfl, rfl⟩
  | some c =>
    rcases hf : fetchData "projects.json" net.projects w with ⟨r, w1⟩
    rw [hf] at h
    simp only at h
    subst h
    exact ⟨rfl, fetchData_snd_page _ _ _ _ _ hf⟩

theorem loadResearch_null (parse : Parser) (net : Net) (containerId : String) (w : World)
    (h : (fetchData "research.json" net.research w).1 = Completion.normal none) :
    (loadResearch parse net containerId w).1 = Completion.normal () ∧
      (loadResearch parse net containerId w).2.page = w.page := by
  unfold loadResearch
  cases getElementById w.page containerId with
  | none => exact ⟨rfl, rfl⟩
  | some c =>
    rcases hf : fetchData "research.json" net.research w with ⟨r, w1⟩
    rw [hf] at h
    simp only at h
    subst h
    exact ⟨rfl, fetchData_snd_page _ _ _ _ _ hf⟩

theorem loadOpportunities_null (parse : Parser) (net : Net) (containerId : String) (w : World)
    (h : (fetchData "opportunities.json" net.opportunities w).1 = Completion.normal none) :
    (loadOpportunities parse net containerId w).1 = Completion.normal () ∧
      (loadOpportunities parse net containerId w).2.page = w.page := by
  unfold loadOpportunities
  cases getElementById w.page containerId with
  | none => exact ⟨rfl, rfl⟩
  | some c =>
    rcases hf : fetchData "opportunities.json" net.opportunities w with ⟨r, w1⟩
    rw [hf] at h
    simp only at h
    subst h
    exact ⟨rfl, fetchData_snd_page _ _ _ _ _ hf⟩

theorem loadPeople_null (parse : Parser) (net : Net) (leadsId fellowsId alumniId : String) (w : World)
    (h : (fetchData "people.json" net.people w).1 = Completion.normal none) :
    (loadPeople parse net leadsId fellowsId alumniId w).1 = Completion.normal () ∧
      (loadPeople parse net leadsId fellowsId alumniId w).2.page = w.page := by
  unfold loadPeople
  rcases hf : fetchData "people.json" net.people w with ⟨r, w1⟩
  rw [hf] at h
  simp only at h
  subst h
  exact ⟨rfl, fetchData_snd_page _ _ _ _ _ hf⟩

/-- C3: for each of the five rendering operations and every page, if the fetch
made by the operation yields `null`, the operation completes normally and the
page after it is the page before it (content slots and visibility alike). -/
theorem null_fetch_leaves_page (parse : Parser) (net : Net) (w : World) :
    (∀ containerId, (fetchData "news.json" net.news w).1 = Completion.normal none →
      (loadNews parse net containerId w).1 = Completion.normal () ∧
        (loadNews parse net containerId w).2.page = w.page) ∧
    (∀ leadsId fellowsId alumniId,
      (fetchData "people.json" net.people w).1 = Completion.normal none →
      (loadPeople parse net leadsId fellowsId alumniId w).1 = Completion.normal () ∧
        (loadPeople parse net leadsId fellowsId alumniId w).2.page = w.page) ∧
    (∀ containerId, (fetchData "projects.json" net.projects w).1 = Completion.normal none →
      (loadProjects parse net containerId w).1 = Completion.normal () ∧
        (loadProjects parse net containerId w).2.page = w.page) ∧
    (∀ containerId, (fetchData "research.json" net.research w).1 = Completion.normal none →
      (loadResearch parse net containerId w).1 = Completion.normal () ∧
        (loadResearch parse net containerId w).2.page = w.page) ∧
    (∀ containerId,
      (fetchData "opportunities.json" net.opportunities w).1 = Completion.normal none →
      (loadOpportunities parse net containerId w).1 = Completion.normal () ∧
        (loadOpportunities parse net containerId w).2.page = w.page) :=
  ⟨fun containerId h => loadNews_null parse net containerId w h,
   fun leadsId fellowsId alumniId h => loadPeople_null parse net leadsId fellowsId alumniId w h,
   fun containerId h => loadProjects_null parse net containerId w h,
   fun containerId h => loadResearch_null parse net containerId w h,
   fun containerId h => loadOpportunities_null parse net containerId w h⟩

/-- Witness of C3: every resource answers with a non-success status on the
sample page, and each operation leaves the sample page as it was. -/
theorem null_fetch_leaves_page_witness :
    (fetchData "news.json" failingNet.news sampleWorld).1 = Completion.normal none ∧
    (loadNews sampleParser failingNet "news-content" sampleWorld).2.page = samplePage ∧
    (loadPeople sampleParser failingNet "leads-content" "fellows-content" "alumni-content"
      sampleWorld).2.page = samplePage ∧
    (loadProjects sampleParser failingNet "projects-content" sampleWorld).2.page = samplePage ∧
    (loadResearch sampleParser failingNet "research-content" sampleWorld).2.page = samplePage ∧
    (loadOpportunities sampleParser failingNet "opportunities-content" sampleWorld).2.page = samplePage :=
  ⟨rfl,
   ((null_fetch_leaves_page sampleParser failingNet sampleWorld).1 "news-content" rfl).2,
   ((null_fetch_leaves_page sampleParser failingNet sampleWorld).2.1
      "leads-content" "fellows-content" "alumni-content" rfl).2,
   ((null_fetch_leaves_page sampleParser failingNet sampleWorld).2.2.1 "projects-content" rfl).2,
   ((null_fetch_leaves_page sampleParser failingNet sampleWorld).2.2.2.1 "research-content" rfl).2,
   ((null_fetch_leaves_page sampleParser failingNet sampleWorld).2.2.2.2 "opportunities-content" rfl).2⟩

/-! ## C9: absent targets -/

/-- Counterexample to C9 as stated: on a page with none of the three people
targets, `loadPeople` still reads `data/people.json`, and when that read fails
it writes a line to the console. -/
theorem loadPeople_reads_without_targets :
    getElementById emptyWorld.page "leads-content" = none ∧
    getElementById emptyWorld.page "fellows-content" = none ∧
    getElementById emptyWorld.page "alumni-content" = none ∧
    (loadPeople sampleParser failingNet "leads-content" "fellows-content" "alumni-content"
      emptyWorld).2.requests = ["data/people.json"] ∧
    (loadPeople sampleParser failingNet "leads-content" "fellows-content" "alumni-content"
      emptyWorld).2.console
      = [("Error loading people.json:", ⟨"Error", "Failed to load people.json"⟩)] ∧
    (loadPeople sampleParser failingNet "leads-content" "fellows-content" "alumni-content"
      emptyWorld).2 ≠ emptyWorld := by
  refine ⟨rfl, rfl, rfl, rfl, rfl, ?_⟩
  decide

theorem renderLeads_absent (data : PeopleData) (leadsId : String) (w : World)
    (h : getElementById w.page leadsId = none) : renderLeads parse data leadsId w = w := by
  simp only [renderLeads, h]

theorem renderFellows_absent (data : PeopleData) (fellowsId : String) (w : World)
    (h : getElementById w.page fellowsId = none) : renderFellows parse data fellowsId w = w := by
  simp only [renderFellows, h]

theorem renderAlumni_absent (data : PeopleData) (alumniId : String) (w : World)
    (h : getElementById w.page alumniId = none) :
    renderAlumni parse data alumniId w = (Completion.normal (), w) := by
  simp only [renderAlumni, h]

/-- C9 (amended): with an absent target, `loadNews`, `loadProjects`,
`loadResearch` and `loadOpportunities` return at once and leave the whole world
(page, console, reads) as it was.  `loadPeople` with none of its three targets
completes normally and leaves the page as it was, but it has read
`data/people.json`: the world after it is the world after that read alone. -/
theorem absent_target_noop (parse : Parser) (net : Net) (w : World) :
    (∀ containerId, getElementById w.page containerId = none →
      loadNews parse net containerId w = (Completion.normal (), w)) ∧
    (∀ containerId, getElementById w.page containerId = none →
      loadProjects parse net containerId w = (Completion.normal (), w)) ∧
    (∀ containerId, getElementById w.page containerId = none →
      loadResearch parse net containerId w = (Completion.normal (), w)) ∧
    (∀ containerId, getElementById w.page containerId = none →
      loadOpportunities parse net containerId w = (Completion.normal (), w)) ∧
    (∀ leadsId fellowsId alumniId,
      getElementById w.page leadsId = none →
      getElementById w.page fellowsId = none →
      getElementById w.page alumniId = none →
      loadPeople parse net leadsId fellowsId alumniId w
        = (Completion.normal (), (fetchData "people.json" net.people w).2) ∧
      (loadPeople parse net leadsId fellowsId alumniId w).2.page = w.page ∧
      (loadPeople parse net leadsId fellowsId alumniId w).2.requests
        = w.requests ++ ["data/people.json"]) := by
  refine ⟨?_, ?_, ?_, ?_, ?_⟩
  · intro containerId h
    simp only [loadNews, h]
  · intro containerId h
    simp only [loadProjects, h]
  · intro containerId h
    simp only [loadResearch, h]
  · intro containerId h
    simp only [loadOpportunities, h]
  · intro leadsId fellowsId alumniId hl hf ha
    have hrun : loadPeople parse net leadsId fellowsId alumniId w
        = (Completion.normal (), (fetchData "people.json" net.people w).2) := by
      unfold loadPeople
      rcases hfd : fetchData "people.json" net.people w with ⟨r, w1⟩
      have hp : w1.page = w.page := fetchData_snd_page _ _ _ _ _ hfd
      obtain ⟨v, hv⟩ := fetchData_normal "people.json" net.people w
      rw [hfd] at hv
      simp only at hv
      subst hv
      cases v with
      | none => rfl
      | some data =>
        simp only
        rw [renderLeads_absent data leadsId w1 (by rw [hp]; exact hl),
          renderFellows_absent data fellowsId w1 (by rw [hp]; exact hf),
          renderAlumni_absent data alumniId w1 (by rw [hp]; exact ha)]
    refine ⟨hrun, ?_, ?_⟩
    · rw [hrun]
      exact fetchData_page _ _ _
    · rw [hrun]
      unfold fetchData
      rcases net.people with e | ⟨ok, body⟩
      · rfl
      · cases ok
        · rfl
        · cases body <;> rfl

/-- Witness of C9 (amended) on the world without elements. -/
theorem absent_target_noop_witness :
    getElementById emptyWorld.page "news-content" = none ∧
    loadNews sampleParser failingNet "news-content" emptyWorld = (Completion.normal (), emptyWorld) ∧
    loadProjects sampleParser failingNet "projects-content" emptyWorld
      = (Completion.normal (), emptyWorld) ∧
    loadResearch sampleParser failingNet "research-content" emptyWorld
      = (Completion.normal (), emptyWorld) ∧
    loadOpportunities sampleParser failingNet "opportunities-content" emptyWorld
      = (Completion.normal (), emptyWorld) ∧
    (loadPeople sampleParser failingNet "leads-content" "fellows-content" "alumni-content"
      emptyWorld).2.page = emptyWorld.page :=
  ⟨rfl,
   (absent_target_noop sampleParser failingNet emptyWorld).1 "news-content" rfl,
   (absent_target_noop sampleParser failingNet emptyWorld).2.1 "projects-content" rfl,
   (absent_target_noop sampleParser failingNet emptyWorld).2.2.1 "research-content" rfl,
   (absent_target_noop sampleParser failingNet emptyWorld).2.2.2.1 "opportunities-content" rfl,
   ((absent_target_noop sampleParser failingNet emptyWorld).2.2.2.2
      "leads-content" "fellows-content" "alumni-content" rfl rfl rfl).2.1⟩

/-! ## C7: dispatch -/

theorem split_ne_nil (sep : Char) (l : List Char) : split sep l ≠ [] := by
  cases l with
  | nil => simp [split]
  | cons c cs =>
    simp only [split]
    split
    · simp
    · split <;> simp

theorem split_of_not_mem (sep : Char) (l : List Char) (h : sep ∉ l) : split sep l = [l] := by
  induction l with
  | nil => rfl
  | cons c cs ih =>
    simp only [List.mem_cons, not_or] at h
    have hc : ¬ c = sep := fun e => h.1 e.symm
    simp only [split, hc, if_false, ih h.2]

theorem split_append (sep : Char) (pre rest : List Char) :
    split sep (pre ++ sep :: rest) = split sep pre ++ split sep rest := by
  induction pre with
  | nil => simp [split]
  | cons c cs ih =>
    have hsplit : split sep (c :: (cs ++ sep :: rest))
        = split sep (c :: cs) ++ split sep rest := by
      by_cases hc : c = sep
      · simp only [split, hc, if_true, ih, List.cons_append]
      · simp only [split, hc, if_false, ih]
        cases hs : split sep cs with
        | nil => exact absurd hs (split_ne_nil sep cs)
        | cons s0 ss => rfl
    exact hsplit

theorem getLast_split_append (sep : Char) (pre seg : List Char) (h : sep ∉ seg) :
    (split sep (pre ++ sep :: seg)).getLast? = some seg := by
  rw [split_append, split_of_not_mem sep seg h, List.getLast?_append]
  simp

theorem currentPage_segment (dir seg : String) (h : '/' ∉ seg.data) :
    currentPage (dir ++ "/" ++ seg) = if seg = "" then "index.html" else seg := by
  have hdata : (dir ++ "/" ++ seg).data = dir.data ++ '/' :: seg.data := by
    simp [String.data_append]
  unfold currentPage
  rw [hdata, getLast_split_append '/' dir.data seg.data h]
  by_cases hs : seg.data = []
  · have : seg = "" := String.ext hs
    simp [hs, this]
  · have : seg ≠ "" := fun e => hs (by rw [e])
    simp [hs, this]

theorem currentPage_no_slash (pathname : String) (h : '/' ∉ pathname.data) :
    currentPage pathname = if pathname = "" then "index.html" else pathname := by
  unfold currentPage
  rw [split_of_not_mem '/' pathname.data h]
  by_cases hs : pathname.data = []
  · have : pathname = "" := String.ext hs
    simp [hs, this]
  · have : pathname ≠ "" := fun e => hs (by rw [e])
    simp [hs, this]

theorem switch_table (page : String) :
    switch page handlerCases =
      if page = "about.html" ∨ page = "index.html" then [Call.loadNews "news-content"]
      else if page = "people.html" then
        [Call.loadPeople "leads-content" "fellows-content" "alumni-content"]
      else if page = "projects.html" then [Call.loadProjects "projects-content"]
      else if page = "research.html" then [Call.loadResearch "research-content"]
      else if page = "opportunities.html" then [Call.loadOpportunities "opportunities-content"]
      else [] := by
  simp only [handlerCases, switch, runFrom]
  by_cases h1 : page = "about.html"
  · simp [h1]
  · by_cases h2 : page = "index.html"
    · simp [h2]
    · simp [h1, h2]

theorem handler_effect (parse : Parser) (net : Net) (pathname : String) (w : World) :
    (currentPage pathname = "about.html" ∨ currentPage pathname = "index.html" →
      onDOMContentLoaded parse net pathname w = (loadNews parse net "news-content" w).2) ∧
    (currentPage pathname = "people.html" →
      onDOMContentLoaded parse net pathname w
        = (loadPeople parse net "leads-content" "fellows-content" "alumni-content" w).2) ∧
    (currentPage pathname = "projects.html" →
      onDOMContentLoaded parse net pathname w
        = (loadProjects parse net "projects-content" w).2) ∧
    (currentPage pathname = "research.html" →
      onDOMContentLoaded parse net pathname w
        = (loadResearch parse net "research-content" w).2) ∧
    (currentPage pathname = "opportunities.html" →
      onDOMContentLoaded parse net pathname w
        = (loadOpportunities parse net "opportunities-content" w).2) ∧
    (currentPage pathname ∉ ["about.html", "index.html", "people.html", "projects.html",
        "research.html", "opportunities.html"] →
      onDOMContentLoaded parse net pathname w = w) := by
  unfold onDOMContentLoaded dispatch
  rw [switch_table]
  refine ⟨?_, ?_, ?_, ?_, ?_, ?_⟩
  · intro h
    rw [if_pos h]
    rfl
  · intro h
    rw [h]
    rfl
  · intro h
    rw [h]
    rfl
  · intro h
    rw [h]
    rfl
  · intro h
    rw [h]
    rfl
  · intro h
    simp only [List.mem_cons, List.mem_singleton, List.not_mem_nil, or_false, not_or] at h
    obtain ⟨h1, h2, h3, h4, h5, h6⟩ := h
    simp only [h1, h2, h3, h4, h5, h6, or_self, if_false]
    rfl

/-- C7: the handler takes the text after the last `/` of the path (the whole
path when it has no `/`), replaced by `index.html` when empty, and compares it
with the six recognized names by strict equality.  For `about.html` and
`index.html` it calls `loadNews('news-content')`, for `people.html`
`loadPeople('leads-content','fellows-content','alumni-content')`, for
`projects.html` `loadProjects('projects-content')`, for `research.html`
`loadResearch('research-content')`, for `opportunities.html`
`loadOpportunities('opportunities-content')`, and nothing for any other name;
at most one call is made, and the list of calls is a function of the path alone,
whatever the page holds.  Running a call is running the operation of that name
on its arguments, so the effect of the handler on the world is the effect of
that one operation, and no effect at all for an unrecognized name. -/
theorem dispatch_contract (pathname : String) :
    (∀ dir seg : String, '/' ∉ seg.data →
      currentPage (dir ++ "/" ++ seg) = if seg = "" then "index.html" else seg) ∧
    dispatch pathname =
      (if currentPage pathname = "about.html" ∨ currentPage pathname = "index.html" then
        [Call.loadNews "news-content"]
      else if currentPage pathname = "people.html" then
        [Call.loadPeople "leads-content" "fellows-content" "alumni-content"]
      else if currentPage pathname = "projects.html" then
        [Call.loadProjects "projects-content"]
      else if currentPage pathname = "research.html" then
        [Call.loadResearch "research-content"]
      else if currentPage pathname = "opportunities.html" then
        [Call.loadOpportunities "opportunities-content"]
      else []) ∧
    (dispatch pathname).length ≤ 1 ∧
    (∀ (parse : Parser) (net : Net) (w : World), onDOMContentLoaded parse net pathname w =
      match dispatch pathname with
      | [] => w
      | call :: _ => (call.run parse net w).2) ∧
    (∀ (parse : Parser) (net : Net),
      (∀ containerId, Call.run parse net (Call.loadNews containerId)
        = loadNews parse net containerId) ∧
      (∀ leadsId fellowsId alumniId,
        Call.run parse net (Call.loadPeople leadsId fellowsId alumniId)
          = loadPeople parse net leadsId fellowsId alumniId) ∧
      (∀ containerId, Call.run parse net (Call.loadProjects containerId)
        = loadProjects parse net containerId) ∧
      (∀ containerId, Call.run parse net (Call.loadResearch containerId)
        = loadResearch parse net containerId) ∧
      (∀ containerId, Call.run parse net (Call.loadOpportunities containerId)
        = loadOpportunities parse net containerId)) ∧
    (∀ (parse : Parser) (net : Net) (w : World),
      (currentPage pathname = "about.html" ∨ currentPage pathname = "index.html" →
        onDOMContentLoaded parse net pathname w = (loadNews parse net "news-content" w).2) ∧
      (currentPage pathname = "people.html" →
        onDOMContentLoaded parse net pathname w
          = (loadPeople parse net "leads-content" "fellows-content" "alumni-content" w).2) ∧
      (currentPage pathname = "projects.html" →
        onDOMContentLoaded parse net pathname w
          = (loadProjects parse net "projects-content" w).2) ∧
      (currentPage pathname = "research.html" →
        onDOMContentLoaded parse net pathname w
          = (loadResearch parse net "research-content" w).2) ∧
      (currentPage pathname = "opportunities.html" →
        onDOMContentLoaded parse net pathname w
          = (loadOpportunities parse net "opportunities-content" w).2) ∧
      (currentPage pathname ∉ ["about.html", "index.html", "people.html", "projects.html",
          "research.html", "opportunities.html"] →
        onDOMContentLoaded parse net pathname w = w)) := by
  have htable := switch_table (currentPage pathname)
  refine ⟨currentPage_segment, htable, ?_, ?_,
    fun parse net => ⟨fun _ => rfl, fun _ _ _ => rfl, fun _ => rfl, fun _ => rfl, fun _ => rfl⟩,
    fun parse net w => handler_effect parse net pathname w⟩
  · unfold dispatch
    rw [htable]
    repeat' split
    all_goals simp
  · intro parse net w
    unfold onDOMContentLoaded dispatch
    rw [htable]
    repeat' split
    all_goals simp_all [runCalls]

/-- Witness of C7: the path of the projects page of a site served from a
sub-directory, a path that ends in `/`, and a name that differs from a
recognized one by case only. -/
theorem dispatch_contract_witness :
    currentPage ("/CISL_Website" ++ "/" ++ "projects.html") = "projects.html" ∧
    dispatch "/CISL_Website/projects.html" = [Call.loadProjects "projects-content"] ∧
    dispatch "/CISL_Website/" = [Call.loadNews "news-content"] ∧
    dispatch "/CISL_Website/Projects.html" = [] ∧
    onDOMContentLoaded sampleParser cardsNet "/CISL_Website/projects.html" sampleWorld
      = (loadProjects sampleParser cardsNet "projects-content" sampleWorld).2 ∧
    onDOMContentLoaded sampleParser cardsNet "/CISL_Website/Projects.html" sampleWorld
      = sampleWorld :=
  ⟨(dispatch_contract "/CISL_Website/projects.html").1 "/CISL_Website" "projects.html"
      (by decide),
   by rw [(dispatch_contract "/CISL_Website/projects.html").2.1]; decide,
   by rw [(dispatch_contract "/CISL_Website/").2.1]; decide,
   by rw [(dispatch_contract "/CISL_Website/Projects.html").2.1]; decide,
   ((dispatch_contract "/CISL_Website/projects.html").2.2.2.2.2 sampleParser cardsNet
      sampleWorld).2.2.1 (by decide),
   ((dispatch_contract "/CISL_Website/Projects.html").2.2.2.2.2 sampleParser cardsNet
      sampleWorld).2.2.2.2.2 (by decide)⟩

/-! ## Lemmas on `loadPeople` -/

theorem contentOf_of_contents (page page' : List Node) (id : String)
    (h : page.map contents = page'.map contents) : contentOf page id = contentOf page' id := by
  have hid : page.map (·.id) = page'.map (·.id) := by
    have := congrArg (List.map Prod.fst) h
    simpa [List.map_map, Function.comp_def, contents] using this
  have hin : page.map (·.innerHTML) = page'.map (·.innerHTML) := by
    have := congrArg (List.map Prod.snd) h
    simpa [List.map_map, Function.comp_def, contents] using this
  unfold contentOf
  rw [getElementById_of_ids page page' id hid]
  cases getElementById page' id with
  | none => rfl
  | some i =>
    simp only
    rw [← List.getElem?_map, ← List.getElem?_map, hin]

theorem setDisplay_contents (p : Nat) (value : String) (w : World) :
    (setDisplay p value w).page.map contents = w.page.map contents :=
  map_modify_of_invariant contents (fun n => { n with display := value }) (fun _ => rfl)
    w.page p

theorem setDisplay_same (p : Nat) (value : String) (w : World) (h : p < w.page.length) :
    displayOf (setDisplay p value w).page p = some value := by
  simp only [displayOf, setDisplay, List.getElem?_modify]
  rw [List.getElem?_eq_getElem h]
  simp

theorem setDisplay_other (p i : Nat) (value : String) (w : World) (h : p ≠ i) :
    displayOf (setDisplay p value w).page i = displayOf w.page i := by
  simp only [displayOf, setDisplay, List.getElem?_modify]
  cases w.page[i]? with
  | none => rfl
  | some a => simp [h]

theorem lastShallower_lt (depth : Nat) (l : List Node) (j : Nat)
    (h : lastShallower depth l = some j) : j < l.length := by
  induction l generalizing j with
  | nil => simp [lastShallower] at h
  | cons n rest ih =>
    simp only [lastShallower] at h
    cases hr : lastShallower depth rest with
    | some k =>
      simp only [hr, Option.some.injEq] at h
      subst h
      have := ih k hr
      simp only [List.length_cons]
      omega
    | none =>
      simp only [hr] at h
      split at h
      · simp only [Option.some.injEq] at h
        subst h
        simp
      · simp at h

theorem parentElement_lt (page : List Node) (c p : Nat) (h : parentElement page c = some p) :
    p < c ∧ c < page.length := by
  unfold parentElement at h
  cases hc : page[c]? with
  | none => simp [hc] at h
  | some n =>
    simp only [hc] at h
    have hlt := lastShallower_lt _ _ _ h
    have hlen : c < page.length := by
      rcases Nat.lt_or_ge c page.length with hlt' | hge
      · exact hlt'
      · rw [List.getElem?_eq_none hge] at hc
        cases hc
    simp only [List.length_take] at hlt
    exact ⟨by omega, hlen⟩

theorem parentElement_setInnerHTML (parse : Parser) (c : Nat) (html : String) (w : World) :
    parentElement (setInnerHTML parse c html w).page c = parentElement w.page c := by
  unfold parentElement setInnerHTML
  simp only [getElem_replaceContent, take_replaceContent]
  cases w.page[c]? with
  | none => rfl
  | some n => rfl

theorem length_setInnerHTML (parse : Parser) (c : Nat) (html : String) (w : World)
    (h : c < w.page.length) : c < (setInnerHTML parse c html w).page.length := by
  have hget := getElem_replaceContent parse html w.page c
  rw [List.getElem?_eq_getElem h] at hget
  rcases Nat.lt_or_ge c (setInnerHTML parse c html w).page.length with hlt | hge
  · exact hlt
  · have hnone : (replaceContent parse html c w.page)[c]? = none := List.getElem?_eq_none hge
    rw [hnone] at hget
    cases hget

theorem displayOf_setInnerHTML_before (parse : Parser) (c i : Nat) (html : String) (w : World)
    (h : i < c) : displayOf (setInnerHTML parse c html w).page i = displayOf w.page i := by
  unfold displayOf setInnerHTML
  have htake := take_replaceContent parse html w.page c
  have h1 : (replaceContent parse html c w.page)[i]?
      = ((replaceContent parse html c w.page).take c)[i]? := by
    rw [List.getElem?_take, if_pos h]
  have h2 : w.page[i]? = (w.page.take c)[i]? := by
    rw [List.getElem?_take, if_pos h]
  simp only [h1, h2, htake]

theorem mem_afterSubtree (depth : Nat) (l : List Node) (n : Node)
    (h : n ∈ afterSubtree depth l) : n ∈ l := by
  induction l with
  | nil => simp [afterSubtree] at h
  | cons m rest ih =>
    simp only [afterSubtree] at h
    split at h
    · exact List.mem_cons_of_mem m (ih h)
    · exact h

theorem replaceContent_origin (parse : Parser) (html : String) (page : List Node) (c : Nat)
    (n : Node) (h : n ∈ replaceContent parse html c page) : keptOrCreated parse page n := by
  induction page generalizing c with
  | nil => cases c <;> simp [replaceContent] at h
  | cons m rest ih =>
    cases c with
    | zero =>
      simp only [replaceContent, List.mem_cons, List.mem_append] at h
      rcases h with h | h | h
      · exact Or.inl ⟨m, List.mem_cons_self m rest, by rw [h], by rw [h]⟩
      · simp only [childrenOf, List.mem_map] at h
        obtain ⟨k, hk, hkn⟩ := h
        exact Or.inr ⟨html, k, hk, by rw [← hkn], by rw [← hkn]⟩
      · exact Or.inl ⟨n, List.mem_cons_of_mem m (mem_afterSubtree _ _ _ h), rfl, rfl⟩
    | succ i =>
      simp only [replaceContent, List.mem_cons] at h
      rcases h with h | h
      · exact Or.inl ⟨m, List.mem_cons_self m rest, by rw [h], by rw [h]⟩
      · rcases ih i h with ⟨k, hk, h1, h2⟩ | hcreated
        · exact Or.inl ⟨k, List.mem_cons_of_mem m hk, h1, h2⟩
        · exact Or.inr hcreated

theorem keptOrCreated_self (parse : Parser) (page : List Node) (n : Node) (h : n ∈ page) :
    keptOrCreated parse page n := Or.inl ⟨n, h, rfl, rfl⟩

theorem keptOrCreated_trans (parse : Parser) (page1 page2 : List Node) (n : Node)
    (h12 : ∀ m ∈ page2, keptOrCreated parse page1 m) (h : keptOrCreated parse page2 n) :
    keptOrCreated parse page1 n := by
  rcases h with ⟨m, hm, h1, h2⟩ | hcreated
  · rcases h12 m hm with ⟨k, hk, k1, k2⟩ | ⟨html, k, hk, k1, k2⟩
    · exact Or.inl ⟨k, hk, k1.trans h1, k2.trans h2⟩
    · exact Or.inr ⟨html, k, hk, k1.trans h1, k2.trans h2⟩
  · exact Or.inr hcreated

theorem renderLeads_origin (parse : Parser) (data : PeopleData) (leadsId : String) (w : World)
    (n : Node) (h : n ∈ (renderLeads parse data leadsId w).page) :
    keptOrCreated parse w.page n := by
  unfold renderLeads at h
  split at h
  · exact replaceContent_origin parse _ w.page _ n h
  · exact keptOrCreated_self parse w.page n h

theorem renderFellows_origin (parse : Parser) (data : PeopleData) (fellowsId : String)
    (w : World) (n : Node) (h : n ∈ (renderFellows parse data fellowsId w).page) :
    keptOrCreated parse w.page n := by
  unfold renderFellows at h
  split at h
  · exact replaceContent_origin parse _ w.page _ n h
  · exact keptOrCreated_self parse w.page n h

theorem afterFellows_origin (parse : Parser) (net : Net) (data : PeopleData)
    (leadsId fellowsId : String) (w : World) (n : Node)
    (h : n ∈ (afterFellows parse net data leadsId fellowsId w).page) :
    keptOrCreated parse w.page n := by
  unfold afterFellows at h
  refine keptOrCreated_trans parse w.page _ n ?_ (renderFellows_origin parse data fellowsId _ n h)
  intro m hm
  unfold afterLeads at hm
  have := renderLeads_origin parse data leadsId _ m hm
  rw [fetchData_page] at this
  exact this

theorem loadPeople_fetched (parse : Parser) (net : Net) (leadsId fellowsId alumniId : String)
    (w : World) (data : PeopleData)
    (hfetch : (fetchData "people.json" net.people w).1 = Completion.normal (some data)) :
    loadPeople parse net leadsId fellowsId alumniId w
      = renderAlumni parse data alumniId (afterFellows parse net data leadsId fellowsId w) := by
  unfold loadPeople afterFellows afterLeads
  rcases hf : fetchData "people.json" net.people w with ⟨r, w1⟩
  rw [hf] at hfetch
  simp only at hfetch
  subst hfetch
  rfl

/-! ## C4: the alumni section is revealed for a non-empty group only -/

/-- Counterexample to C4 as stated: on a page whose alumni section lies inside
the leads container, the alumni target exists (with a hidden parent) and the
alumni group is non-empty, yet `loadPeople` reveals nothing: filling the leads
container has removed the alumni target before it is looked up.  And when the
alumni target is the document element, which has no parent, `loadPeople` ends in
a `TypeError`. -/
theorem loadPeople_nested_alumni_hidden :
    getElementById nestedWorld.page "alumni-content" = some 4 ∧
    parentElement nestedWorld.page 4 = some 3 ∧
    displayOf nestedWorld.page 3 = some "none" ∧
    nonEmptyGroup peopleWithAlumni.alumni = true ∧
    (loadPeople sampleParser (peopleNet peopleWithAlumni) "leads-content" "fellows-content"
      "alumni-content" nestedWorld).1 = Completion.normal () ∧
    (loadPeople sampleParser (peopleNet peopleWithAlumni) "leads-content" "fellows-content"
      "alumni-content" nestedWorld).2.page.map (·.display) = ["", "", ""] ∧
    getElementById (loadPeople sampleParser (peopleNet peopleWithAlumni) "leads-content"
      "fellows-content" "alumni-content" nestedWorld).2.page "alumni-content" = none ∧
    getElementById rootWorld.page "alumni-content" = some 0 ∧
    (loadPeople sampleParser (peopleNet peopleWithAlumni) "leads-content" "fellows-content"
      "alumni-content" rootWorld).1
      = Completion.throw ⟨"TypeError", "parentElement is null"⟩ :=
  ⟨rfl, rfl, rfl, rfl, rfl, rfl, rfl, rfl, rfl⟩

/-- C4 (amended): when the fetch of `people.json` returns a resource and the
alumni target is found when `loadPeople` looks it up, that is in the page as the
leads and fellows steps left it, and has a parent element, `loadPeople`
completes normally and sets the `display` of that parent to `block` exactly
when the alumni group is present and non-empty (leaving the `display` of the
other elements that precede the target as it was).  When the group is absent or
empty the alumni step assigns nothing: the world is the one the leads and
fellows steps left, and those steps assign no `display`: every element of their
page was created by the parser or has the `id` and `display` of an element of
the page before. -/
theorem loadPeople_alumni_visibility (parse : Parser) (net : Net)
    (leadsId fellowsId alumniId : String) (w : World) (data : PeopleData) (c p : Nat)
    (hfetch : (fetchData "people.json" net.people w).1 = Completion.normal (some data))
    (htarget : getElementById (afterFellows parse net data leadsId fellowsId w).page alumniId
      = some c)
    (hparent : parentElement (afterFellows parse net data leadsId fellowsId w).page c = some p) :
    (loadPeople parse net leadsId fellowsId alumniId w).1 = Completion.normal () ∧
    (nonEmptyGroup data.alumni = true →
      displayOf (loadPeople parse net leadsId fellowsId alumniId w).2.page p = some "block" ∧
      ∀ i, i < c → i ≠ p →
        displayOf (loadPeople parse net leadsId fellowsId alumniId w).2.page i
          = displayOf (afterFellows parse net data leadsId fellowsId w).page i) ∧
    (nonEmptyGroup data.alumni = false →
      (loadPeople parse net leadsId fellowsId alumniId w).2
        = afterFellows parse net data leadsId fellowsId w) ∧
    (∀ n ∈ (afterFellows parse net data leadsId fellowsId w).page,
      keptOrCreated parse w.page n) := by
  rw [loadPeople_fetched parse net leadsId fellowsId alumniId w data hfetch]
  have horigin := afterFellows_origin parse net data leadsId fellowsId w
  generalize afterFellows parse net data leadsId fellowsId w = w3 at htarget hparent horigin ⊢
  have hcases : (∃ person rest, data.alumni = some (person :: rest)) ∨
      (nonEmptyGroup data.alumni = false ∧ renderAlumni parse data alumniId w3
        = (Completion.normal (), w3)) := by
    cases hal : data.alumni with
    | none => exact Or.inr ⟨rfl, by simp only [renderAlumni, htarget, hal]⟩
    | some alumni =>
      cases alumni with
      | nil =>
        refine Or.inr ⟨rfl, ?_⟩
        simp only [renderAlumni, htarget, hal, List.length_nil, gt_iff_lt, lt_self_iff_false,
          if_false]
      | cons person rest => exact Or.inl ⟨person, rest, rfl⟩
  rcases hcases with ⟨person, rest, hal⟩ | ⟨hempty, hrun⟩
  · have hpc := parentElement_lt _ c p hparent
    have hp4 : ∀ html, parentElement (setInnerHTML parse c html w3).page c = some p :=
      fun html => by rw [parentElement_setInnerHTML, hparent]
    have hlt : ∀ html, p < (setInnerHTML parse c html w3).page.length := fun html => by
      have := length_setInnerHTML parse c html w3 hpc.2
      omega
    have hrun : renderAlumni parse data alumniId w3
        = (Completion.normal (), setDisplay p "block" (setInnerHTML parse c
            (join ((person :: rest).map (fun person => renderPersonCard person false))) w3)) := by
      simp only [renderAlumni, htarget, hal, List.length_cons, gt_iff_lt, Nat.zero_lt_succ,
        if_true, hp4]
    rw [hrun]
    refine ⟨rfl, fun _ => ⟨setDisplay_same p "block" _ (hlt _), fun i hic hip => ?_⟩,
      fun h => ?_, horigin⟩
    · rw [setDisplay_other p i "block" _ (fun e => hip e.symm)]
      exact displayOf_setInnerHTML_before parse c i _ w3 hic
    · rw [hal] at h
      simp [nonEmptyGroup] at h
  · rw [hrun]
    refine ⟨rfl, fun h => ?_, fun _ => rfl, horigin⟩
    rw [hempty] at h
    cases h

/-- Witness of C4 (amended) on the sample page, whose alumni section starts
hidden; the card of the one lead creates an element, so that the section is the
element 5 and the alumni target the element 6 when they are looked up: the
section stays hidden for `alumni: []` and is shown for one alumni. -/
theorem loadPeople_alumni_visibility_witness :
    displayOf (afterFellows sampleParser (peopleNet peopleNoAlumni) peopleNoAlumni
      "leads-content" "fellows-content" sampleWorld).page 5 = some "none" ∧
    displayOf (loadPeople sampleParser (peopleNet peopleNoAlumni) "leads-content"
      "fellows-content" "alumni-content" sampleWorld).2.page 5 = some "none" ∧
    displayOf (loadPeople sampleParser (peopleNet peopleWithAlumni) "leads-content"
      "fellows-content" "alumni-content" sampleWorld).2.page 5 = some "block" :=
  ⟨rfl,
   (congrArg (fun w => displayOf w.page 5)
      ((loadPeople_alumni_visibility sampleParser (peopleNet peopleNoAlumni) "leads-content"
        "fellows-content" "alumni-content" sampleWorld peopleNoAlumni 6 5 rfl rfl rfl).2.2.1
        rfl)).trans rfl,
   ((loadPeople_alumni_visibility sampleParser (peopleNet peopleWithAlumni) "leads-content"
      "fellows-content" "alumni-content" sampleWorld peopleWithAlumni 6 5 rfl rfl rfl).2.1
      rfl).1⟩

/-! ## C8: the three groups of `loadPeople` -/

theorem renderLeads_contentOf (parse : Parser) (data : PeopleData) (leadsId : String)
    (w : World) (leads : List PersonRecord) (hgroup : data.leads = some leads)
    (htarget : (getElementById w.page leadsId).isSome = true) :
    contentOf (renderLeads parse data leadsId w).page leadsId
      = some (join (leads.map (fun person => renderPersonCard person true))) := by
  obtain ⟨c, hc⟩ := Option.isSome_iff_exists.mp htarget
  simp only [renderLeads, hc, hgroup]
  exact contentOf_setInnerHTML parse c _ w leadsId hc

theorem renderFellows_contentOf (parse : Parser) (data : PeopleData) (fellowsId : String)
    (w : World) (fellows : List PersonRecord) (hgroup : data.fellows = some fellows)
    (htarget : (getElementById w.page fellowsId).isSome = true) :
    contentOf (renderFellows parse data fellowsId w).page fellowsId
      = some (join (fellows.map (fun person => renderPersonCard person false))) := by
  obtain ⟨c, hc⟩ := Option.isSome_iff_exists.mp htarget
  simp only [renderFellows, hc, hgroup]
  exact contentOf_setInnerHTML parse c _ w fellowsId hc

theorem renderAlumni_contentOf (parse : Parser) (data : PeopleData) (alumniId : String)
    (w : World) (alumni : List PersonRecord) (hgroup : data.alumni = some alumni)
    (hne : alumni ≠ []) (htarget : (getElementById w.page alumniId).isSome = true) :
    contentOf (renderAlumni parse data alumniId w).2.page alumniId
      = some (join (alumni.map (fun person => renderPersonCard person false))) := by
  obtain ⟨c, hc⟩ := Option.isSome_iff_exists.mp htarget
  have hlen : alumni.length > 0 := List.length_pos.mpr hne
  simp only [renderAlumni, hc, hgroup, hlen, if_true]
  have hset := contentOf_setInnerHTML parse c
    (join (alumni.map (fun person => renderPersonCard person false))) w alumniId hc
  split
  · exact hset
  · rw [contentOf_of_contents _ _ alumniId (setDisplay_contents _ _ _)]
    exact hset

theorem renderAlumni_empty (parse : Parser) (data : PeopleData) (alumniId : String)
    (w : World) (hgroup : data.alumni = some []) :
    renderAlumni parse data alumniId w = (Completion.normal (), w) := by
  unfold renderAlumni
  rw [hgroup]
  cases getElementById w.page alumniId <;> rfl

/-- Counterexample to C8 as stated: the alumni group is present as the empty
list and its target exists, yet the content of the target is not set to the
(empty) concatenation of cards: it keeps its former content, whereas the
fellows group, present and empty as well, does empty its target.  And on a page
whose fellows target lies inside the leads container, the fellows group is
present and its target exists in the page, yet no content is set for it:
filling the leads container has removed the target before it is looked up. -/
theorem loadPeople_empty_alumni_not_rendered :
    peopleNoAlumni.alumni = some [] ∧
    (getElementById sampleWorld.page "alumni-content").isSome = true ∧
    contentOf sampleWorld.page "alumni-content" = some "old alumni" ∧
    contentOf (loadPeople sampleParser (peopleNet peopleNoAlumni) "leads-content"
      "fellows-content" "alumni-content" sampleWorld).2.page "alumni-content"
      = some "old alumni" ∧
    contentOf (loadPeople sampleParser (peopleNet peopleNoAlumni) "leads-content"
      "fellows-content" "alumni-content" sampleWorld).2.page "alumni-content"
      ≠ some (join (([] : List PersonRecord).map (fun person => renderPersonCard person false))) ∧
    contentOf (loadPeople sampleParser (peopleNet peopleNoAlumni) "leads-content"
      "fellows-content" "alumni-content" sampleWorld).2.page "fellows-content" = some "" ∧
    peopleWithFellow.fellows = some [personB] ∧
    (getElementById nestedWorld.page "fellows-content").isSome = true ∧
    contentOf nestedWorld.page "fellows-content" = some "old fellows" ∧
    contentOf (loadPeople sampleParser (peopleNet peopleWithFellow) "leads-content"
      "fellows-content" "alumni-content" nestedWorld).2.page "fellows-content" = none ∧
    (loadPeople sampleParser (peopleNet peopleWithFellow) "leads-content"
      "fellows-content" "alumni-content" nestedWorld).2.page.map (·.innerHTML)
      = ["", renderPersonCard personA true ++ "", ""] := by
  refine ⟨rfl, rfl, rfl, rfl, ?_, rfl, rfl, rfl, rfl, rfl, rfl⟩
  decide

/-- C8 (amended): after a successful fetch `loadPeople` runs the leads step,
the fellows step and the alumni step in this order, and each step that finds
its target when it looks it up (an earlier step replaces everything inside the
container it fills) sets the content of the target it found: a present leads
group to the concatenation, in resource order, of `renderPersonCard(person,
true)`, a present fellows group to the cards built with `isLead` false, the
empty list included (the content becomes empty), and a present alumni group to
the cards built with `isLead` false only when it is non-empty; for a present but
empty alumni group the alumni step changes nothing. -/
theorem loadPeople_groups (parse : Parser) (net : Net) (leadsId fellowsId alumniId : String)
    (w : World) (data : PeopleData)
    (hfetch : (fetchData "people.json" net.people w).1 = Completion.normal (some data)) :
    loadPeople parse net leadsId fellowsId alumniId w
      = renderAlumni parse data alumniId
          (renderFellows parse data fellowsId
            (renderLeads parse data leadsId (fetchData "people.json" net.people w).2)) ∧
    (∀ leads, data.leads = some leads → (getElementById w.page leadsId).isSome = true →
      contentOf (afterLeads parse net data leadsId w).page leadsId
        = some (join (leads.map (fun person => renderPersonCard person true)))) ∧
    (∀ fellows, data.fellows = some fellows →
      (getElementById (afterLeads parse net data leadsId w).page fellowsId).isSome = true →
      contentOf (afterFellows parse net data leadsId fellowsId w).page fellowsId
        = some (join (fellows.map (fun person => renderPersonCard person false)))) ∧
    (∀ alumni, data.alumni = some alumni → alumni ≠ [] →
      (getElementById (afterFellows parse net data leadsId fellowsId w).page alumniId).isSome
        = true →
      contentOf (loadPeople parse net leadsId fellowsId alumniId w).2.page alumniId
        = some (join (alumni.map (fun person => renderPersonCard person false)))) ∧
    (data.alumni = some [] →
      (loadPeople parse net leadsId fellowsId alumniId w).2
        = afterFellows parse net data leadsId fellowsId w) := by
  have hrun := loadPeople_fetched parse net leadsId fellowsId alumniId w data hfetch
  refine ⟨hrun, ?_, ?_, ?_, ?_⟩
  · intro leads hgroup htarget
    refine renderLeads_contentOf parse data leadsId _ leads hgroup ?_
    rw [fetchData_page]
    exact htarget
  · intro fellows hgroup htarget
    exact renderFellows_contentOf parse data fellowsId _ fellows hgroup htarget
  · intro alumni hgroup hne htarget
    rw [hrun]
    exact renderAlumni_contentOf parse data alumniId _ alumni hgroup hne htarget
  · intro hgroup
    rw [hrun, renderAlumni_empty parse data alumniId _ hgroup]

/-- Witness of C8 (amended) on the sample page: one lead, an empty fellows
group and one alumni; and an empty alumni group. -/
theorem loadPeople_groups_witness :
    contentOf (afterLeads sampleParser (peopleNet peopleWithAlumni) peopleWithAlumni
      "leads-content" sampleWorld).page "leads-content"
      = some (renderPersonCard personA true ++ "") ∧
    contentOf (afterFellows sampleParser (peopleNet peopleWithAlumni) peopleWithAlumni
      "leads-content" "fellows-content" sampleWorld).page "fellows-content" = some "" ∧
    contentOf (loadPeople sampleParser (peopleNet peopleWithAlumni) "leads-content"
      "fellows-content" "alumni-content" sampleWorld).2.page "alumni-content"
      = some (renderPersonCard personB false ++ "") ∧
    contentOf (loadPeople sampleParser (peopleNet peopleWithAlumni) "leads-content"
      "fellows-content" "alumni-content" sampleWorld).2.page "leads-content"
      = some (renderPersonCard personA true ++ "") ∧
    contentOf (loadPeople sampleParser (peopleNet peopleNoAlumni) "leads-content"
      "fellows-content" "alumni-content" sampleWorld).2.page "alumni-content"
      = some "old alumni" :=
  ⟨(loadPeople_groups sampleParser (peopleNet peopleWithAlumni) "leads-content"
      "fellows-content" "alumni-content" sampleWorld peopleWithAlumni rfl).2.1
      [personA] rfl rfl,
   (loadPeople_groups sampleParser (peopleNet peopleWithAlumni) "leads-content"
      "fellows-content" "alumni-content" sampleWorld peopleWithAlumni rfl).2.2.1 [] rfl rfl,
   (loadPeople_groups sampleParser (peopleNet peopleWithAlumni) "leads-content"
      "fellows-content" "alumni-content" sampleWorld peopleWithAlumni rfl).2.2.2.1
      [personB] rfl (by decide) rfl,
   rfl,
   (congrArg (fun w => contentOf w.page "alumni-content")
      ((loadPeople_groups sampleParser (peopleNet peopleNoAlumni) "leads-content"
        "fellows-content" "alumni-content" sampleWorld peopleNoAlumni rfl).2.2.2.2 rfl)).trans
      rfl⟩

/-! ## Counting occurrences in markup -/

theorem startsWith_append_of_settled (pat t rest : List Char) (h : settled pat t = true) :
    startsWith pat (t ++ rest) = startsWith pat t := by
  induction pat generalizing t with
  | nil => simp [startsWith]
  | cons p ps ih =>
    cases t with
    | nil => simp [settled] at h
    | cons c cs =>
      simp only [settled] at h
      by_cases hpc : p = c
      · simp only [hpc, if_true] at h
        simp [startsWith, hpc, ih cs h]
      · simp [startsWith, hpc]

theorem occurrences_append_of_allSettled (pat lit rest : List Char)
    (h : allSettled pat lit = true) :
    occurrences pat (lit ++ rest) = occurrences pat lit + occurrences pat rest := by
  induction lit with
  | nil => simp [occurrences]
  | cons c cs ih =>
    simp only [allSettled, Bool.and_eq_true] at h
    have hs : startsWith pat (c :: (cs ++ rest)) = startsWith pat (c :: cs) :=
      startsWith_append_of_settled pat (c :: cs) rest h.1
    have e1 : occurrences pat (c :: cs ++ rest)
        = (if startsWith pat (c :: (cs ++ rest)) then 1 else 0) + occurrences pat (cs ++ rest) :=
      rfl
    have e2 : occurrences pat (c :: cs)
        = (if startsWith pat (c :: cs) then 1 else 0) + occurrences pat cs := rfl
    rw [e1, e2, hs, ih h.2]
    omega

theorem occurrences_skip (p : Char) (ps x rest : List Char) (h : p ∉ x) :
    occurrences (p :: ps) (x ++ rest) = occurrences (p :: ps) rest := by
  induction x with
  | nil => rfl
  | cons c cs ih =>
    simp only [List.mem_cons, not_or] at h
    have hpc : ¬ p = c := h.1
    simp [occurrences, startsWith, hpc, ih h.2]

theorem count_lit_append (pat lit s : String) (h : allSettled pat.data lit.data = true) :
    count pat (lit ++ s) = count pat lit + count pat s := by
  unfold count
  rw [String.data_append]
  exact occurrences_append_of_allSettled _ _ _ h

theorem count_plain_append (pat x s : String) (hx : plain x)
    (hp : pat.data.head? = some '<') : count pat (x ++ s) = count pat s := by
  unfold count
  rw [String.data_append]
  cases hpd : pat.data with
  | nil => simp [hpd] at hp
  | cons p ps =>
    simp only [hpd, List.head?_cons, Option.some.injEq] at hp
    subst hp
    exact occurrences_skip _ _ _ _ hx

theorem count_lit (pat lit s : String) (n : Nat)
    (h : (allSettled pat.data lit.data && decide (count pat lit = n)) = true) :
    count pat (lit ++ s) = n + count pat s := by
  simp only [Bool.and_eq_true, decide_eq_true_eq] at h
  rw [count_lit_append pat lit s h.1, h.2]

theorem count_empty_append (pat s : String) : count pat ("" ++ s) = count pat s := by
  unfold count
  rw [String.data_append]
  rfl

theorem count_gated (pat before after : String) (n : Nat) (field : Option String)
    (rest : String)
    (hlit : (decide (pat.data.head? = some '<')
      && (allSettled pat.data before.data && decide (count pat before = n))
      && (allSettled pat.data after.data && decide (count pat after = 0))) = true)
    (hplain : plainField field) :
    count pat ((if truthy field = true then before ++ interpolate field ++ after else "") ++ rest)
      = (if truthy field = true then n else 0) + count pat rest := by
  simp only [Bool.and_eq_true, decide_eq_true_eq] at hlit
  obtain ⟨⟨hp, hb, hbn⟩, ha, han⟩ := hlit
  by_cases ht : truthy field = true
  · cases field with
    | none => simp [truthy] at ht
    | some v =>
      simp only [ht, if_true, interpolate, String.append_assoc]
      rw [count_lit_append _ _ _ hb, count_plain_append _ _ _ (hplain v rfl) hp,
        count_lit_append _ _ _ ha, hbn, han]
      omega
  · have hf : truthy field = false := by simpa using ht
    simp only [hf, Bool.false_eq_true, if_false, Nat.zero_add]
    exact count_empty_append _ _

/-! ## C5: the person card -/

theorem count_linkedinHTML (person : PersonRecord) (rest : String)
    (hurl : ∀ url, person.links.bind (·.linkedin) = some url → plain url) :
    count "<a " (linkedinHTML person ++ rest)
      = (if truthy (person.links.bind (·.linkedin)) = true then 1 else 0)
        + count "<a " rest := by
  unfold linkedinHTML linkedinAnchor
  exact count_gated "<a " _ _ 1 _ rest (by decide) hurl

theorem count_anchor_card (person : PersonRecord) (isLead : Bool)
    (hphoto : plain person.photo) (hname : plain person.name) (hkw : plain person.keywords)
    (hurl : ∀ url, person.links.bind (·.linkedin) = some url → plain url) :
    count "<a " (renderPersonCard person isLead)
      = if truthy (person.links.bind (·.linkedin)) = true then 1 else 0 := by
  unfold renderPersonCard
  simp only [String.append_assoc]
  have hlead : (allSettled "<a ".data
      (if isLead = true then "person--lead" else "person--fellow").data
      && decide (count "<a " (if isLead = true then "person--lead" else "person--fellow") = 0))
      = true := by
    cases isLead <;> decide
  rw [count_lit _ _ _ 0 (by decide), count_lit _ _ _ 0 hlead,
    count_lit _ _ _ 0 (by decide), count_plain_append _ _ _ hphoto (by decide),
    count_lit _ _ _ 0 (by decide), count_plain_append _ _ _ hname (by decide),
    count_lit _ _ _ 0 (by decide), count_plain_append _ _ _ hname (by decide),
    count_lit _ _ _ 0 (by decide), count_plain_append _ _ _ hkw (by decide),
    count_lit _ _ _ 0 (by decide), count_linkedinHTML person _ hurl]
  have hend : count "<a " "\n            </div>\n        " = 0 := by decide
  rw [hend]
  omega

/-- Counterexample to C5 as stated: the nested `linkedin` field is present, as
the empty string, and the card holds no LinkedIn link at all.  Moreover the
fields are inserted unescaped: a record without `links` whose name is the markup
of a link yields a card with anchors. -/
theorem renderPersonCard_empty_linkedin :
    (janeEmptyLink.links.bind (·.linkedin)).isSome = true ∧
    count "<a " (renderPersonCard janeEmptyLink true) = 0 ∧
    count "person__linkedin" (renderPersonCard janeEmptyLink true) = 0 ∧
    renderPersonCard janeEmptyLink true = renderPersonCard janeNoLinks true ∧
    janeMarkupName.links = none ∧
    count "<a " (renderPersonCard janeMarkupName true) = 2 :=
  ⟨rfl, rfl, rfl, rfl, rfl, rfl⟩

/-- C5 (amended): for every person record, `renderPersonCard(person, true)`
contains the class `person--lead`, the photo as the source of the image and the
name as the text of the name element; when `links.linkedin` is present and not
the empty string the card contains the anchor whose `href` is that address.
When no field of the record contains the character that opens a tag, the card
holds exactly one anchor if `links.linkedin` is present and non-empty, and no
anchor at all if `links` is omitted, or `linkedin` is absent or empty. -/
theorem renderPersonCard_contract (person : PersonRecord) :
    (∃ pre post : String, renderPersonCard person true = pre ++ "person--lead" ++ post) ∧
    (∃ pre post : String, renderPersonCard person true
      = pre ++ ("<img src=\"" ++ person.photo ++ "\"") ++ post) ∧
    (∃ pre post : String, renderPersonCard person true
      = pre ++ ("<div class=\"person__name\">" ++ person.name ++ "</div>") ++ post) ∧
    (∀ url, person.links.bind (·.linkedin) = some url → url ≠ "" →
      ∃ pre post : String, renderPersonCard person true = pre ++ linkedinAnchor url ++ post) ∧
    (plain person.photo → plain person.name → plain person.keywords →
      (∀ url, person.links.bind (·.linkedin) = some url → plain url) →
      count "<a " (renderPersonCard person true)
        = if truthy (person.links.bind (·.linkedin)) = true then 1 else 0) := by
  have e1 : (" card-accent\">\n                <img src=\"" : String)
      = " card-accent\">\n                " ++ "<img src=\"" := by decide
  have e2 : ("\" alt=\"" : String) = "\"" ++ " alt=\"" := by decide
  have e3 : ("\" class=\"person__photo\">\n                <div class=\"person__name\">" : String)
      = "\" class=\"person__photo\">\n                " ++ "<div class=\"person__name\">" := by
    decide
  have e4 : ("</div>\n                <div class=\"person__keywords\">" : String)
      = "</div>" ++ "\n                <div class=\"person__keywords\">" := by decide
  refine ⟨?_, ?_, ?_, ?_, ?_⟩
  · refine ⟨"\n            <div class=\"person ",
      " card-accent\">\n                <img src=\"" ++ person.photo ++ "\" alt=\""
        ++ person.name
        ++ "\" class=\"person__photo\">\n                <div class=\"person__name\">"
        ++ person.name ++ "</div>\n                <div class=\"person__keywords\">"
        ++ person.keywords ++ "</div>\n                " ++ linkedinHTML person
        ++ "\n            </div>\n        ", ?_⟩
    simp only [renderPersonCard, if_true, String.append_assoc]
  · refine ⟨"\n            <div class=\"person " ++ "person--lead"
        ++ " card-accent\">\n                ",
      " alt=\"" ++ person.name
        ++ "\" class=\"person__photo\">\n                <div class=\"person__name\">"
        ++ person.name ++ "</div>\n                <div class=\"person__keywords\">"
        ++ person.keywords ++ "</div>\n                " ++ linkedinHTML person
        ++ "\n            </div>\n        ", ?_⟩
    simp only [renderPersonCard, if_true]
    rw [e1, e2]
    simp only [String.append_assoc]
  · refine ⟨"\n            <div class=\"person " ++ "person--lead"
        ++ " card-accent\">\n                <img src=\"" ++ person.photo ++ "\" alt=\""
        ++ person.name ++ "\" class=\"person__photo\">\n                ",
      "\n                <div class=\"person__keywords\">"
        ++ person.keywords ++ "</div>\n                " ++ linkedinHTML person
        ++ "\n            </div>\n        ", ?_⟩
    simp only [renderPersonCard, if_true]
    rw [e3, e4]
    simp only [String.append_assoc]
  · intro url hurl hne
    refine ⟨"\n            <div class=\"person " ++ "person--lead"
        ++ " card-accent\">\n                <img src=\"" ++ person.photo ++ "\" alt=\""
        ++ person.name
        ++ "\" class=\"person__photo\">\n                <div class=\"person__name\">"
        ++ person.name ++ "</div>\n                <div class=\"person__keywords\">"
        ++ person.keywords ++ "</div>\n                ",
      "\n            </div>\n        ", ?_⟩
    have ht : truthy (some url) = true := by simp [truthy, hne]
    simp only [renderPersonCard, linkedinHTML, hurl, ht, if_true, interpolate,
      String.append_assoc]
  · intro hphoto hname hkw hurl
    exact count_anchor_card person true hphoto hname hkw hurl

/-- Witness of C5 (amended) on the record of the example: one anchor with the
link, none without `links`. -/
theorem renderPersonCard_contract_witness :
    count "<a " (renderPersonCard jane true) = 1 ∧
    count "<a " (renderPersonCard janeNoLinks true) = 0 ∧
    (∃ pre post : String,
      renderPersonCard jane true = pre ++ linkedinAnchor "https://li/jane" ++ post) :=
  ⟨((renderPersonCard_contract jane).2.2.2.2 (by decide) (by decide) (by decide)
      (fun url h => by
        have : url = "https://li/jane" := (Option.some.inj h).symm
        subst this
        decide)).trans rfl,
   ((renderPersonCard_contract janeNoLinks).2.2.2.2 (by decide) (by decide) (by decide)
      (fun url h => by simp [janeNoLinks] at h)).trans rfl,
   (renderPersonCard_contract jane).2.2.2.1 "https://li/jane" rfl (by decide)⟩

/-! ## C10: keyword tags of projects and research areas -/

theorem count_wrapped (pat openTag closeTag : String) (n : Nat) (items : List String)
    (rest : String)
    (hlit : (decide (pat.data.head? = some '<')
      && (allSettled pat.data openTag.data && decide (count pat openTag = n))
      && (allSettled pat.data closeTag.data && decide (count pat closeTag = 0))) = true)
    (hitems : ∀ b ∈ items, plain b) :
    count pat (join (items.map (fun b => openTag ++ b ++ closeTag)) ++ rest)
      = n * items.length + count pat rest := by
  simp only [Bool.and_eq_true, decide_eq_true_eq] at hlit
  obtain ⟨⟨hp, ho, hon⟩, hc, hcn⟩ := hlit
  induction items with
  | nil =>
    simp only [List.map_nil, join, List.length_nil, Nat.mul_zero, Nat.zero_add]
    exact count_empty_append _ _
  | cons b bs ih =>
    have hb : plain b := hitems b (List.mem_cons_self b bs)
    have hbs : ∀ x ∈ bs, plain x := fun x hx => hitems x (List.mem_cons_of_mem b hx)
    simp only [List.map_cons, join, List.length_cons]
    rw [String.append_assoc, String.append_assoc, String.append_assoc,
      count_lit_append _ _ _ ho, count_plain_append _ _ _ hb hp, count_lit_append _ _ _ hc,
      ih hbs, hon, hcn, Nat.mul_succ]
    omega

theorem count_keywordTags (keywords : List String) (rest : String)
    (hplain : ∀ k ∈ keywords, plain k) :
    count "<span>" (join (keywords.map keywordTag) ++ rest)
      = keywords.length + count "<span>" rest := by
  have h := count_wrapped "<span>" "<span>" "</span>" 1 keywords rest (by decide) hplain
  rw [Nat.one_mul] at h
  exact h

theorem count_span_project (project : ProjectRecord)
    (htitle : plain project.title) (hstatus : plain project.status)
    (hdescription : plain project.description) (hkeywords : ∀ k ∈ project.keywords, plain k) :
    count "<span>" (projectHTML project) = project.keywords.length := by
  unfold projectHTML
  simp only [String.append_assoc]
  rw [count_lit _ _ _ 0 (by decide), count_plain_append _ _ _ htitle (by decide),
    count_lit _ _ _ 0 (by decide), count_plain_append _ _ _ hstatus (by decide),
    count_lit _ _ _ 0 (by decide), count_plain_append _ _ _ hstatus (by decide),
    count_lit _ _ _ 0 (by decide), count_plain_append _ _ _ hdescription (by decide),
    count_lit _ _ _ 0 (by decide), count_keywordTags _ _ hkeywords]
  have hend : count "<span>" "\n                </div>\n            </article>\n        " = 0 := by
    decide
  rw [hend]
  omega

theorem count_span_research (area : ResearchArea)
    (htitle : plain area.title) (hsubtitle : plain area.subtitle)
    (hdescription : plain area.description) (hkeywords : ∀ k ∈ area.keywords, plain k) :
    count "<span>" (researchHTML area) = area.keywords.length := by
  unfold researchHTML
  simp only [String.append_assoc]
  rw [count_lit _ _ _ 0 (by decide), count_plain_append _ _ _ htitle (by decide),
    count_lit _ _ _ 0 (by decide), count_plain_append _ _ _ hsubtitle (by decide),
    count_lit _ _ _ 0 (by decide), count_plain_append _ _ _ hdescription (by decide),
    count_lit _ _ _ 0 (by decide), count_keywordTags _ _ hkeywords]
  have hend : count "<span>" "\n                </div>\n            </article>\n        " = 0 := by
    decide
  rw [hend]
  omega

theorem loadProjects_content (parse : Parser) (net : Net) (containerId : String) (w : World)
    (projects : List ProjectRecord)
    (htarget : (getElementById w.page containerId).isSome = true)
    (hfetch : (fetchData "projects.json" net.projects w).1 = Completion.normal (some projects)) :
    (loadProjects parse net containerId w).1 = Completion.normal () ∧
    contentOf (loadProjects parse net containerId w).2.page containerId
      = some (join (projects.map projectHTML)) := by
  obtain ⟨c, hc⟩ := Option.isSome_iff_exists.mp htarget
  rcases hf : fetchData "projects.json" net.projects w with ⟨r, w1⟩
  rw [hf] at hfetch
  simp only at hfetch
  subst hfetch
  have hpage : w1.page = w.page := fetchData_snd_page _ _ _ _ _ hf
  have hrun : loadProjects parse net containerId w
      = (Completion.normal (), setInnerHTML parse c (join (projects.map projectHTML)) w1) := by
    simp only [loadProjects, hc, hf]
  rw [hrun]
  exact ⟨rfl, contentOf_setInnerHTML parse c _ w1 containerId (by rw [hpage]; exact hc)⟩

theorem loadResearch_content (parse : Parser) (net : Net) (containerId : String) (w : World)
    (research : List ResearchArea)
    (htarget : (getElementById w.page containerId).isSome = true)
    (hfetch : (fetchData "research.json" net.research w).1 = Completion.normal (some research)) :
    (loadResearch parse net containerId w).1 = Completion.normal () ∧
    contentOf (loadResearch parse net containerId w).2.page containerId
      = some (join (research.map researchHTML)) := by
  obtain ⟨c, hc⟩ := Option.isSome_iff_exists.mp htarget
  rcases hf : fetchData "research.json" net.research w with ⟨r, w1⟩
  rw [hf] at hfetch
  simp only at hfetch
  subst hfetch
  have hpage : w1.page = w.page := fetchData_snd_page _ _ _ _ _ hf
  have hrun : loadResearch parse net containerId w
      = (Completion.normal (), setInnerHTML parse c (join (research.map researchHTML)) w1) := by
    simp only [loadResearch, hc, hf]
  rw [hrun]
  exact ⟨rfl, contentOf_setInnerHTML parse c _ w1 containerId (by rw [hpage]; exact hc)⟩

/-- C10: in a project card and in a research-area card the keywords element
holds the concatenation, in the order of the record and with nothing in
between, of one `<span>k</span>` per keyword `k`: as many tags as keywords, none
for an empty sequence (when no field contains the character that opens a tag,
the whole card holds exactly as many `<span>` tags as the record has keywords).
`loadProjects` and `loadResearch` set the content of their target to the
concatenation of the cards in resource order. -/
theorem keyword_tags (parse : Parser) (net : Net) (w : World) (containerId : String) :
    (∀ project : ProjectRecord, ∃ pre : String, projectHTML project
      = pre ++ ("<div class=\"project-card__keywords\">\n                    "
        ++ join (project.keywords.map keywordTag) ++ "\n                </div>")
        ++ "\n            </article>\n        ") ∧
    (∀ area : ResearchArea, ∃ pre : String, researchHTML area
      = pre ++ ("<div class=\"research-area__keywords\">\n                    "
        ++ join (area.keywords.map keywordTag) ++ "\n                </div>")
        ++ "\n            </article>\n        ") ∧
    (∀ k : String, keywordTag k = "<span>" ++ k ++ "</span>") ∧
    (∀ keywords : List String, (keywords.map keywordTag).length = keywords.length) ∧
    join (([] : List String).map keywordTag) = "" ∧
    (∀ project : ProjectRecord, plain project.title → plain project.status →
      plain project.description → (∀ k ∈ project.keywords, plain k) →
      count "<span>" (projectHTML project) = project.keywords.length) ∧
    (∀ area : ResearchArea, plain area.title → plain area.subtitle →
      plain area.description → (∀ k ∈ area.keywords, plain k) →
      count "<span>" (researchHTML area) = area.keywords.length) ∧
    (∀ projects : List ProjectRecord, (getElementById w.page containerId).isSome = true →
      (fetchData "projects.json" net.projects w).1 = Completion.normal (some projects) →
      (loadProjects parse net containerId w).1 = Completion.normal () ∧
      contentOf (loadProjects parse net containerId w).2.page containerId
        = some (join (projects.map projectHTML))) ∧
    (∀ research : List ResearchArea, (getElementById w.page containerId).isSome = true →
      (fetchData "research.json" net.research w).1 = Completion.normal (some research) →
      (loadResearch parse net containerId w).1 = Completion.normal () ∧
      contentOf (loadResearch parse net containerId w).2.page containerId
        = some (join (research.map researchHTML))) := by
  have e1 : ("</p>\n                <div class=\"project-card__keywords\">\n                    " : String)
      = "</p>\n                " ++ "<div class=\"project-card__keywords\">\n                    " := by
    decide
  have e2 : ("</p>\n                <div class=\"research-area__keywords\">\n                    " : String)
      = "</p>\n                " ++ "<div class=\"research-area__keywords\">\n                    " := by
    decide
  have e3 : ("\n                </div>\n            </article>\n        " : String)
      = "\n                </div>" ++ "\n            </article>\n        " := by decide
  refine ⟨?_, ?_, fun _ => rfl, fun keywords => List.length_map keywords keywordTag, rfl,
    count_span_project, count_span_research,
    fun projects ht hf => loadProjects_content parse net containerId w projects ht hf,
    fun research ht hf => loadResearch_content parse net containerId w research ht hf⟩
  · intro project
    refine ⟨"\n            <article class=\"project-card card-accent fade-in\">\n                <div class=\"project-card__header\">\n                    <h3>"
      ++ project.title
      ++ "</h3>\n                    <span class=\"project-card__status project-card__status--"
      ++ project.status ++ "\">" ++ project.status
      ++ "</span>\n                </div>\n                <p>"
      ++ project.description ++ "</p>\n                ", ?_⟩
    simp only [projectHTML]
    rw [e1, e3]
    simp only [String.append_assoc]
  · intro area
    refine ⟨"\n            <article class=\"research-area fade-in\">\n                <h3>"
      ++ area.title ++ "</h3>\n                <p class=\"research-area__subtitle\">"
      ++ area.subtitle ++ "</p>\n                <p>"
      ++ area.description ++ "</p>\n                ", ?_⟩
    simp only [researchHTML]
    rw [e2, e3]
    simp only [String.append_assoc]

/-- Witness of C10: two keywords give the two tags in order, no keyword gives no
tag, and the sample page receives the cards. -/
theorem keyword_tags_witness :
    join (sampleProject.keywords.map keywordTag) = "<span>AI</span><span>Robotics</span>" ∧
    count "<span>" (projectHTML sampleProject) = 2 ∧
    count "<span>" (researchHTML sampleArea) = 0 ∧
    contentOf (loadProjects sampleParser cardsNet "projects-content" sampleWorld).2.page "projects-content"
      = some (join ([sampleProject].map projectHTML)) ∧
    contentOf (loadResearch sampleParser cardsNet "research-content" sampleWorld).2.page "research-content"
      = some (join ([sampleArea].map researchHTML)) :=
  ⟨by decide,
   (keyword_tags sampleParser cardsNet sampleWorld "projects-content").2.2.2.2.2.1 sampleProject
      (by decide) (by decide) (by decide) (by decide),
   (keyword_tags sampleParser cardsNet sampleWorld "projects-content").2.2.2.2.2.2.1 sampleArea
      (by decide) (by decide) (by decide) (by decide),
   ((keyword_tags sampleParser cardsNet sampleWorld "projects-content").2.2.2.2.2.2.2.1 [sampleProject]
      rfl rfl).2,
   ((keyword_tags sampleParser cardsNet sampleWorld "research-content").2.2.2.2.2.2.2.2 [sampleArea]
      rfl rfl).2⟩

/-! ## C6: the optional blocks of an opportunity card -/

theorem count_listBody (pat before after : String) (n m : Nat) (items : List String)
    (rest : String)
    (hlit : (decide (pat.data.head? = some '<')
      && (allSettled pat.data before.data && decide (count pat before = n))
      && (allSettled pat.data "<li>".data && decide (count pat "<li>" = m))
      && (allSettled pat.data "</li>".data && decide (count pat "</li>" = 0))
      && (allSettled pat.data after.data && decide (count pat after = 0))) = true)
    (hitems : ∀ b ∈ items, plain b) :
    count pat (before ++ join (items.map listItem) ++ after ++ rest)
      = n + m * items.length + count pat rest := by
  simp only [Bool.and_eq_true, decide_eq_true_eq] at hlit
  obtain ⟨⟨⟨⟨hp, hb, hbn⟩, ho, hon⟩, hc, hcn⟩, ha, han⟩ := hlit
  have hwrapped := count_wrapped pat "<li>" "</li>" m items (after ++ rest)
    (by simp only [Bool.and_eq_true, decide_eq_true_eq]; exact ⟨⟨hp, ho, hon⟩, hc, hcn⟩) hitems
  have hmap : items.map listItem = items.map (fun b => "<li>" ++ b ++ "</li>") := rfl
  rw [String.append_assoc, String.append_assoc, count_lit_append _ _ _ hb, hmap, hwrapped,
    count_lit_append _ _ _ ha, hbn, han]
  omega

theorem count_benefitsBlock (pat : String) (n m : Nat) (opp : OpportunityRecord)
    (rest : String)
    (hlit : (decide (pat.data.head? = some '<')
      && (allSettled pat.data
          "\n                    <h4>What You\x27ll Gain</h4>\n                    <ul>\n                        ".data
        && decide (count pat
          "\n                    <h4>What You\x27ll Gain</h4>\n                    <ul>\n                        "
          = n))
      && (allSettled pat.data "<li>".data && decide (count pat "<li>" = m))
      && (allSettled pat.data "</li>".data && decide (count pat "</li>" = 0))
      && (allSettled pat.data "\n                    </ul>\n                ".data
        && decide (count pat "\n                    </ul>\n                " = 0))) = true)
    (hplain : plainItems opp.benefits) :
    count pat (benefitsBlock opp ++ rest)
      = (if nonEmptyList opp.benefits = true then n else 0)
        + m * (opp.benefits.getD []).length + count pat rest := by
  unfold benefitsBlock
  cases hb : opp.benefits with
  | none =>
    simp only [nonEmptyList, Bool.false_eq_true, if_false, Option.getD_none, List.length_nil,
      Nat.mul_zero, Nat.zero_add]
    exact count_empty_append _ _
  | some l =>
    cases l with
    | nil =>
      simp only [nonEmptyList, Bool.false_eq_true, if_false, Option.getD_some, List.length_nil,
        Nat.mul_zero, Nat.zero_add, gt_iff_lt, lt_self_iff_false]
      exact count_empty_append _ _
    | cons b bs =>
      simp only [nonEmptyList, if_true, Option.getD_some, List.length_cons, gt_iff_lt,
        Nat.zero_lt_succ]
      exact count_listBody pat _ _ n m (b :: bs) rest hlit (hplain (b :: bs) hb)

theorem count_screeningBlock (pat : String) (n m : Nat) (opp : OpportunityRecord)
    (rest : String)
    (hlit : (decide (pat.data.head? = some '<')
      && (allSettled pat.data
          "\n                    <div class=\"screening-questions\">\n                        <h4>Screening Questions</h4>\n                        <ol>\n                            ".data
        && decide (count pat
          "\n                    <div class=\"screening-questions\">\n                        <h4>Screening Questions</h4>\n                        <ol>\n                            "
          = n))
      && (allSettled pat.data "<li>".data && decide (count pat "<li>" = m))
      && (allSettled pat.data "</li>".data && decide (count pat "</li>" = 0))
      && (allSettled pat.data
          "\n                        </ol>\n                    </div>\n                ".data
        && decide (count pat
          "\n                        </ol>\n                    </div>\n                " = 0)))
      = true)
    (hplain : plainItems opp.screeningQuestions) :
    count pat (screeningBlock opp ++ rest)
      = (if nonEmptyList opp.screeningQuestions = true then n else 0)
        + m * (opp.screeningQuestions.getD []).length + count pat rest := by
  unfold screeningBlock
  cases hb : opp.screeningQuestions with
  | none =>
    simp only [nonEmptyList, Bool.false_eq_true, if_false, Option.getD_none, List.length_nil,
      Nat.mul_zero, Nat.zero_add]
    exact count_empty_append _ _
  | some l =>
    cases l with
    | nil =>
      simp only [nonEmptyList, Bool.false_eq_true, if_false, Option.getD_some, List.length_nil,
        Nat.mul_zero, Nat.zero_add, gt_iff_lt, lt_self_iff_false]
      exact count_empty_append _ _
    | cons b bs =>
      simp only [nonEmptyList, if_true, Option.getD_some, List.length_cons, gt_iff_lt,
        Nat.zero_lt_succ]
      exact count_listBody pat _ _ n m (b :: bs) rest hlit (hplain (b :: bs) hb)

theorem count_background_opportunity (opp : OpportunityRecord) (h : PlainOpportunity opp) :
    count "<h4>Preferred Background</h4>" (opportunityHTML opp)
      = if truthy opp.background = true then 1 else 0 := by
  unfold opportunityHTML
  simp only [String.append_assoc]
  unfold backgroundBlock commitmentBlock downloadBlock
  rw [count_lit _ _ _ 0 (by decide), count_plain_append _ _ _ h.title (by decide),
    count_lit _ _ _ 0 (by decide), count_plain_append _ _ _ h.status (by decide),
    count_lit _ _ _ 0 (by decide), count_plain_append _ _ _ h.status (by decide),
    count_lit _ _ _ 0 (by decide), count_plain_append _ _ _ h.description (by decide),
    count_lit _ _ _ 0 (by decide),
    count_gated _ _ _ 1 _ _ (by decide) h.background,
    count_lit _ _ _ 0 (by decide),
    count_gated _ _ _ 0 _ _ (by decide) h.commitment,
    count_lit _ _ _ 0 (by decide),
    count_benefitsBlock _ 0 0 opp _ (by decide) h.benefits,
    count_lit _ _ _ 0 (by decide),
    count_screeningBlock _ 0 0 opp _ (by decide) h.screeningQuestions,
    count_lit _ _ _ 0 (by decide),
    count_gated _ _ _ 0 _ _ (by decide) h.downloadFile]
  have hend : count "<h4>Preferred Background</h4>" "\n            </div>\n        " = 0 := by decide
  rw [hend]
  simp only [ite_self, Nat.zero_add, Nat.add_zero, Nat.zero_mul, Nat.one_mul]

theorem count_commitment_opportunity (opp : OpportunityRecord) (h : PlainOpportunity opp) :
    count "<h4>Time Commitment</h4>" (opportunityHTML opp)
      = if truthy opp.commitment = true then 1 else 0 := by
  unfold opportunityHTML
  simp only [String.append_assoc]
  unfold backgroundBlock commitmentBlock downloadBlock
  rw [count_lit _ _ _ 0 (by decide), count_plain_append _ _ _ h.title (by decide),
    count_lit _ _ _ 0 (by decide), count_plain_append _ _ _ h.status (by decide),
    count_lit _ _ _ 0 (by decide), count_plain_append _ _ _ h.status (by decide),
    count_lit _ _ _ 0 (by decide), count_plain_append _ _ _ h.description (by decide),
    count_lit _ _ _ 0 (by decide),
    count_gated _ _ _ 0 _ _ (by decide) h.background,
    count_lit _ _ _ 0 (by decide),
    count_gated _ _ _ 1 _ _ (by decide) h.commitment,
    count_lit _ _ _ 0 (by decide),
    count_benefitsBlock _ 0 0 opp _ (by decide) h.benefits,
    count_lit _ _ _ 0 (by decide),
    count_screeningBlock _ 0 0 opp _ (by decide) h.screeningQuestions,
    count_lit _ _ _ 0 (by decide),
    count_gated _ _ _ 0 _ _ (by decide) h.downloadFile]
  have hend : count "<h4>Time Commitment</h4>" "\n            </div>\n        " = 0 := by decide
  rw [hend]
  simp only [ite_self, Nat.zero_add, Nat.add_zero, Nat.zero_mul, Nat.one_mul]

theorem count_benefits_opportunity (opp : OpportunityRecord) (h : PlainOpportunity opp) :
    count "<h4>What You\x27ll Gain</h4>" (opportunityHTML opp)
      = if nonEmptyList opp.benefits = true then 1 else 0 := by
  unfold opportunityHTML
  simp only [String.append_assoc]
  unfold backgroundBlock commitmentBlock downloadBlock
  rw [count_lit _ _ _ 0 (by decide), count_plain_append _ _ _ h.title (by decide),
    count_lit _ _ _ 0 (by decide), count_plain_append _ _ _ h.status (by decide),
    count_lit _ _ _ 0 (by decide), count_plain_append _ _ _ h.status (by decide),
    count_lit _ _ _ 0 (by decide), count_plain_append _ _ _ h.description (by decide),
    count_lit _ _ _ 0 (by decide),
    count_gated _ _ _ 0 _ _ (by decide) h.background,
    count_lit _ _ _ 0 (by decide),
    count_gated _ _ _ 0 _ _ (by decide) h.commitment,
    count_lit _ _ _ 0 (by decide),
    count_benefitsBlock _ 1 0 opp _ (by decide) h.benefits,
    count_lit _ _ _ 0 (by decide),
    count_screeningBlock _ 0 0 opp _ (by decide) h.screeningQuestions,
    count_lit _ _ _ 0 (by decide),
    count_gated _ _ _ 0 _ _ (by decide) h.downloadFile]
  have hend : count "<h4>What You\x27ll Gain</h4>" "\n            </div>\n        " = 0 := by decide
  rw [hend]
  simp only [ite_self, Nat.zero_add, Nat.add_zero, Nat.zero_mul, Nat.one_mul]

theorem count_ul_opportunity (opp : OpportunityRecord) (h : PlainOpportunity opp) :
    count "<ul>" (opportunityHTML opp)
      = if nonEmptyList opp.benefits = true then 1 else 0 := by
  unfold opportunityHTML
  simp only [String.append_assoc]
  unfold backgroundBlock commitmentBlock downloadBlock
  rw [count_lit _ _ _ 0 (by decide), count_plain_append _ _ _ h.title (by decide),
    count_lit _ _ _ 0 (by decide), count_plain_append _ _ _ h.status (by decide),
    count_lit _ _ _ 0 (by decide), count_plain_append _ _ _ h.status (by decide),
    count_lit _ _ _ 0 (by decide), count_plain_append _ _ _ h.description (by decide),
    count_lit _ _ _ 0 (by decide),
    count_gated _ _ _ 0 _ _ (by decide) h.background,
    count_lit _ _ _ 0 (by decide),
    count_gated _ _ _ 0 _ _ (by decide) h.commitment,
    count_lit _ _ _ 0 (by decide),
    count_benefitsBlock _ 1 0 opp _ (by decide) h.benefits,
    count_lit _ _ _ 0 (by decide),
    count_screeningBlock _ 0 0 opp _ (by decide) h.screeningQuestions,
    count_lit _ _ _ 0 (by decide),
    count_gated _ _ _ 0 _ _ (by decide) h.downloadFile]
  have hend : count "<ul>" "\n            </div>\n        " = 0 := by decide
  rw [hend]
  simp only [ite_self, Nat.zero_add, Nat.add_zero, Nat.zero_mul, Nat.one_mul]

theorem count_screening_opportunity (opp : OpportunityRecord) (h : PlainOpportunity opp) :
    count "<h4>Screening Questions</h4>" (opportunityHTML opp)
      = if nonEmptyList opp.screeningQuestions = true then 1 else 0 := by
  unfold opportunityHTML
  simp only [String.append_assoc]
  unfold backgroundBlock commitmentBlock downloadBlock
  rw [count_lit _ _ _ 0 (by decide), count_plain_append _ _ _ h.title (by decide),
    count_lit _ _ _ 0 (by decide), count_plain_append _ _ _ h.status (by decide),
    count_lit _ _ _ 0 (by decide), count_plain_append _ _ _ h.status (by decide),
    count_lit _ _ _ 0 (by decide), count_plain_append _ _ _ h.description (by decide),
    count_lit _ _ _ 0 (by decide),
    count_gated _ _ _ 0 _ _ (by decide) h.background,
    count_lit _ _ _ 0 (by decide),
    count_gated _ _ _ 0 _ _ (by decide) h.commitment,
    count_lit _ _ _ 0 (by decide),
    count_benefitsBlock _ 0 0 opp _ (by decide) h.benefits,
    count_lit _ _ _ 0 (by decide),
    count_screeningBlock _ 1 0 opp _ (by decide) h.screeningQuestions,
    count_lit _ _ _ 0 (by decide),
    count_gated _ _ _ 0 _ _ (by decide) h.downloadFile]
  have hend : count "<h4>Screening Questions</h4>" "\n            </div>\n        " = 0 := by decide
  rw [hend]
  simp only [ite_self, Nat.zero_add, Nat.add_zero, Nat.zero_mul, Nat.one_mul]

theorem count_ol_opportunity (opp : OpportunityRecord) (h : PlainOpportunity opp) :
    count "<ol>" (opportunityHTML opp)
      = if nonEmptyList opp.screeningQuestions = true then 1 else 0 := by
  unfold opportunityHTML
  simp only [String.append_assoc]
  unfold backgroundBlock commitmentBlock downloadBlock
  rw [count_lit _ _ _ 0 (by decide), count_plain_append _ _ _ h.title (by decide),
    count_lit _ _ _ 0 (by decide), count_plain_append _ _ _ h.status (by decide),
    count_lit _ _ _ 0 (by decide), count_plain_append _ _ _ h.status (by decide),
    count_lit _ _ _ 0 (by decide), count_plain_append _ _ _ h.description (by decide),
    count_lit _ _ _ 0 (by decide),
    count_gated _ _ _ 0 _ _ (by decide) h.background,
    count_lit _ _ _ 0 (by decide),
    count_gated _ _ _ 0 _ _ (by decide) h.commitment,
    count_lit _ _ _ 0 (by decide),
    count_benefitsBlock _ 0 0 opp _ (by decide) h.benefits,
    count_lit _ _ _ 0 (by decide),
    count_screeningBlock _ 1 0 opp _ (by decide) h.screeningQuestions,
    count_lit _ _ _ 0 (by decide),
    count_gated _ _ _ 0 _ _ (by decide) h.downloadFile]
  have hend : count "<ol>" "\n            </div>\n        " = 0 := by decide
  rw [hend]
  simp only [ite_self, Nat.zero_add, Nat.add_zero, Nat.zero_mul, Nat.one_mul]

theorem count_anchor_opportunity (opp : OpportunityRecord) (h : PlainOpportunity opp) :
    count "<a " (opportunityHTML opp)
      = if truthy opp.downloadFile = true then 1 else 0 := by
  unfold opportunityHTML
  simp only [String.append_assoc]
  unfold backgroundBlock commitmentBlock downloadBlock
  rw [count_lit _ _ _ 0 (by decide), count_plain_append _ _ _ h.title (by decide),
    count_lit _ _ _ 0 (by decide), count_plain_append _ _ _ h.status (by decide),
    count_lit _ _ _ 0 (by decide), count_plain_append _ _ _ h.status (by decide),
    count_lit _ _ _ 0 (by decide), count_plain_append _ _ _ h.description (by decide),
    count_lit _ _ _ 0 (by decide),
    count_gated _ _ _ 0 _ _ (by decide) h.background,
    count_lit _ _ _ 0 (by decide),
    count_gated _ _ _ 0 _ _ (by decide) h.commitment,
    count_lit _ _ _ 0 (by decide),
    count_benefitsBlock _ 0 0 opp _ (by decide) h.benefits,
    count_lit _ _ _ 0 (by decide),
    count_screeningBlock _ 0 0 opp _ (by decide) h.screeningQuestions,
    count_lit _ _ _ 0 (by decide),
    count_gated _ _ _ 1 _ _ (by decide) h.downloadFile]
  have hend : count "<a " "\n            </div>\n        " = 0 := by decide
  rw [hend]
  simp only [ite_self, Nat.zero_add, Nat.add_zero, Nat.zero_mul, Nat.one_mul]

theorem count_li_opportunity (opp : OpportunityRecord) (h : PlainOpportunity opp) :
    count "<li>" (opportunityHTML opp)
      = (opp.benefits.getD []).length + (opp.screeningQuestions.getD []).length := by
  unfold opportunityHTML
  simp only [String.append_assoc]
  unfold backgroundBlock commitmentBlock downloadBlock
  rw [count_lit _ _ _ 0 (by decide), count_plain_append _ _ _ h.title (by decide),
    count_lit _ _ _ 0 (by decide), count_plain_append _ _ _ h.status (by decide),
    count_lit _ _ _ 0 (by decide), count_plain_append _ _ _ h.status (by decide),
    count_lit _ _ _ 0 (by decide), count_plain_append _ _ _ h.description (by decide),
    count_lit _ _ _ 0 (by decide),
    count_gated _ _ _ 0 _ _ (by decide) h.background,
    count_lit _ _ _ 0 (by decide),
    count_gated _ _ _ 0 _ _ (by decide) h.commitment,
    count_lit _ _ _ 0 (by decide),
    count_benefitsBlock _ 0 1 opp _ (by decide) h.benefits,
    count_lit _ _ _ 0 (by decide),
    count_screeningBlock _ 0 1 opp _ (by decide) h.screeningQuestions,
    count_lit _ _ _ 0 (by decide),
    count_gated _ _ _ 0 _ _ (by decide) h.downloadFile]
  have hend : count "<li>" "\n            </div>\n        " = 0 := by decide
  rw [hend]
  simp only [ite_self, Nat.zero_add, Nat.add_zero, Nat.zero_mul, Nat.one_mul]

theorem loadOpportunities_content (parse : Parser) (net : Net) (containerId : String) (w : World)
    (opportunities : List OpportunityRecord)
    (htarget : (getElementById w.page containerId).isSome = true)
    (hfetch : (fetchData "opportunities.json" net.opportunities w).1
      = Completion.normal (some opportunities)) :
    (loadOpportunities parse net containerId w).1 = Completion.normal () ∧
    contentOf (loadOpportunities parse net containerId w).2.page containerId
      = some (join (opportunities.map opportunityHTML)) := by
  obtain ⟨c, hc⟩ := Option.isSome_iff_exists.mp htarget
  rcases hf : fetchData "opportunities.json" net.opportunities w with ⟨r, w1⟩
  rw [hf] at hfetch
  simp only at hfetch
  subst hfetch
  have hpage : w1.page = w.page := fetchData_snd_page _ _ _ _ _ hf
  have hrun : loadOpportunities parse net containerId w
      = (Completion.normal (), setInnerHTML parse c (join (opportunities.map opportunityHTML)) w1) := by
    simp only [loadOpportunities, hc, hf]
  rw [hrun]
  exact ⟨rfl, contentOf_setInnerHTML parse c _ w1 containerId (by rw [hpage]; exact hc)⟩

theorem background_in_card (opp : OpportunityRecord) (value : String)
    (hfield : opp.background = some value) (hne : value ≠ "") :
    ∃ pre post : String, opportunityHTML opp
      = pre ++ ("\n                    <h4>Preferred Background</h4>\n                    <p>"
        ++ value
        ++ "</p>\n                ") ++ post := by
  have ht : truthy (some value) = true := by simp [truthy, hne]
  refine ⟨"\n            <div class=\"opportunity-card\">\n                <h3>" ++ opp.title
      ++ " <span class=\"status-badge status-badge--" ++ opp.status
      ++ "\">" ++ opp.status
      ++ "</span></h3>\n                <p>" ++ opp.description
      ++ "</p>\n                \n                ",
    "\n                \n                " ++ commitmentBlock opp
      ++ "\n                \n                " ++ benefitsBlock opp
      ++ "\n                \n                " ++ screeningBlock opp
      ++ "\n                \n                " ++ downloadBlock opp
      ++ "\n            </div>\n        ", ?_⟩
  simp only [opportunityHTML, backgroundBlock, hfield, ht, if_true, interpolate,
    String.append_assoc]

theorem commitment_in_card (opp : OpportunityRecord) (value : String)
    (hfield : opp.commitment = some value) (hne : value ≠ "") :
    ∃ pre post : String, opportunityHTML opp
      = pre ++ ("\n                    <h4>Time Commitment</h4>\n                    <p>"
        ++ value
        ++ "</p>\n                ") ++ post := by
  have ht : truthy (some value) = true := by simp [truthy, hne]
  refine ⟨"\n            <div class=\"opportunity-card\">\n                <h3>" ++ opp.title
      ++ " <span class=\"status-badge status-badge--" ++ opp.status
      ++ "\">" ++ opp.status
      ++ "</span></h3>\n                <p>" ++ opp.description
      ++ "</p>\n                \n                " ++ backgroundBlock opp
      ++ "\n                \n                ",
    "\n                \n                " ++ benefitsBlock opp
      ++ "\n                \n                " ++ screeningBlock opp
      ++ "\n                \n                " ++ downloadBlock opp
      ++ "\n            </div>\n        ", ?_⟩
  simp only [opportunityHTML, commitmentBlock, hfield, ht, if_true, interpolate,
    String.append_assoc]

theorem benefits_in_card (opp : OpportunityRecord) (items : List String)
    (hfield : opp.benefits = some items) (hne : items ≠ []) :
    ∃ pre post : String, opportunityHTML opp
      = pre ++ ("\n                    <h4>What You\x27ll Gain</h4>\n                    <ul>\n                        "
        ++ join (items.map listItem)
        ++ "\n                    </ul>\n                ") ++ post := by
  have hlen : items.length > 0 := List.length_pos.mpr hne
  refine ⟨"\n            <div class=\"opportunity-card\">\n                <h3>" ++ opp.title
      ++ " <span class=\"status-badge status-badge--" ++ opp.status
      ++ "\">" ++ opp.status
      ++ "</span></h3>\n                <p>" ++ opp.description
      ++ "</p>\n                \n                " ++ backgroundBlock opp
      ++ "\n                \n                " ++ commitmentBlock opp
      ++ "\n                \n                ",
    "\n                \n                " ++ screeningBlock opp
      ++ "\n                \n                " ++ downloadBlock opp
      ++ "\n            </div>\n        ", ?_⟩
  simp only [opportunityHTML, benefitsBlock, hfield, hlen, if_true, String.append_assoc]

theorem screening_in_card (opp : OpportunityRecord) (items : List String)
    (hfield : opp.screeningQuestions = some items) (hne : items ≠ []) :
    ∃ pre post : String, opportunityHTML opp
      = pre ++ ("\n                    <div class=\"screening-questions\">\n                        <h4>Screening Questions</h4>\n                        <ol>\n                            "
        ++ join (items.map listItem)
        ++ "\n                        </ol>\n                    </div>\n                ") ++ post := by
  have hlen : items.length > 0 := List.length_pos.mpr hne
  refine ⟨"\n            <div class=\"opportunity-card\">\n                <h3>" ++ opp.title
      ++ " <span class=\"status-badge status-badge--" ++ opp.status
      ++ "\">" ++ opp.status
      ++ "</span></h3>\n                <p>" ++ opp.description
      ++ "</p>\n                \n                " ++ backgroundBlock opp
      ++ "\n                \n                " ++ commitmentBlock opp
      ++ "\n                \n                " ++ benefitsBlock opp
      ++ "\n                \n                ",
    "\n                \n                " ++ downloadBlock opp
      ++ "\n            </div>\n        ", ?_⟩
  simp only [opportunityHTML, screeningBlock, hfield, hlen, if_true, String.append_assoc]

theorem download_in_card (opp : OpportunityRecord) (value : String)
    (hfield : opp.downloadFile = some value) (hne : value ≠ "") :
    ∃ pre post : String, opportunityHTML opp
      = pre ++ ("\n                    <div style=\"margin-top: var(--space-xl);\">\n                        <a href=\""
        ++ value
        ++ "\" download class=\"download-btn\">Download Job Description</a>\n                    </div>\n                ") ++ post := by
  have ht : truthy (some value) = true := by simp [truthy, hne]
  refine ⟨"\n            <div class=\"opportunity-card\">\n                <h3>" ++ opp.title
      ++ " <span class=\"status-badge status-badge--" ++ opp.status
      ++ "\">" ++ opp.status
      ++ "</span></h3>\n                <p>" ++ opp.description
      ++ "</p>\n                \n                " ++ backgroundBlock opp
      ++ "\n                \n                " ++ commitmentBlock opp
      ++ "\n                \n                " ++ benefitsBlock opp
      ++ "\n                \n                " ++ screeningBlock opp
      ++ "\n                \n                ",
    "\n            </div>\n        ", ?_⟩
  simp only [opportunityHTML, downloadBlock, hfield, ht, if_true, interpolate,
    String.append_assoc]

/-- Counterexample to C6 as stated: the `background` field is present, as the
empty string, and the card has no Preferred Background block: it is the card of
the record without the field.  Moreover the fields are inserted unescaped: a
record without `benefits` whose description is the markup of the benefits
heading yields a card with that heading. -/
theorem opportunity_empty_background :
    oppEmptyBackground.background.isSome = true ∧
    count "<h4>Preferred Background</h4>" (opportunityHTML oppEmptyBackground) = 0 ∧
    opportunityHTML oppEmptyBackground = opportunityHTML oppBare ∧
    oppMarkupDescription.benefits = none ∧
    count "<h4>What You\x27ll Gain</h4>" (opportunityHTML oppMarkupDescription) = 1 :=
  ⟨rfl, rfl, rfl, rfl, rfl⟩

/-- C6 (amended): the card of an opportunity contains the Preferred Background
block with the text of `background`, the Time Commitment block with the text of
`commitment`, and the download link whose `href` is `downloadFile`, whenever
that field is present and not the empty string; it contains the block
`What You'll Gain` with the bulleted list of `<li>b</li>` for each benefit, in
order, and the Screening Questions block with the numbered list of
`<li>q</li>` for each question, whenever that list is present and non-empty;
each whatever the other optional fields hold.  When no text of the record
contains the character that opens a tag, each heading, the `<ul>`, the `<ol>`
and the download anchor occur once if their own field passes that test and not
at all otherwise, and the card holds one `<li>` per benefit and per screening
question.  `loadOpportunities` sets the content of its target to the
concatenation of the cards. -/
theorem opportunity_blocks (opp : OpportunityRecord) :
    (∀ background, opp.background = some background → background ≠ "" →
      ∃ pre post : String, opportunityHTML opp
        = pre ++ ("\n                    <h4>Preferred Background</h4>\n                    <p>"
          ++ background
          ++ "</p>\n                ") ++ post) ∧
    (∀ commitment, opp.commitment = some commitment → commitment ≠ "" →
      ∃ pre post : String, opportunityHTML opp
        = pre ++ ("\n                    <h4>Time Commitment</h4>\n                    <p>"
          ++ commitment
          ++ "</p>\n                ") ++ post) ∧
    (∀ benefits, opp.benefits = some benefits → benefits ≠ [] →
      ∃ pre post : String, opportunityHTML opp
        = pre ++ ("\n                    <h4>What You\x27ll Gain</h4>\n                    <ul>\n                        "
          ++ join (benefits.map listItem)
          ++ "\n                    </ul>\n                ") ++ post) ∧
    (∀ questions, opp.screeningQuestions = some questions → questions ≠ [] →
      ∃ pre post : String, opportunityHTML opp
        = pre ++ ("\n                    <div class=\"screening-questions\">\n                        <h4>Screening Questions</h4>\n                        <ol>\n                            "
          ++ join (questions.map listItem)
          ++ "\n                        </ol>\n                    </div>\n                ") ++ post) ∧
    (∀ downloadFile, opp.downloadFile = some downloadFile → downloadFile ≠ "" →
      ∃ pre post : String, opportunityHTML opp
        = pre ++ ("\n                    <div style=\"margin-top: var(--space-xl);\">\n                        <a href=\""
          ++ downloadFile
          ++ "\" download class=\"download-btn\">Download Job Description</a>\n                    </div>\n                ") ++ post) ∧
    (∀ b : String, listItem b = "<li>" ++ b ++ "</li>") ∧
    (PlainOpportunity opp →
      count "<h4>Preferred Background</h4>" (opportunityHTML opp)
        = (if truthy opp.background = true then 1 else 0) ∧
      count "<h4>Time Commitment</h4>" (opportunityHTML opp)
        = (if truthy opp.commitment = true then 1 else 0) ∧
      count "<h4>What You\x27ll Gain</h4>" (opportunityHTML opp)
        = (if nonEmptyList opp.benefits = true then 1 else 0) ∧
      count "<ul>" (opportunityHTML opp)
        = (if nonEmptyList opp.benefits = true then 1 else 0) ∧
      count "<h4>Screening Questions</h4>" (opportunityHTML opp)
        = (if nonEmptyList opp.screeningQuestions = true then 1 else 0) ∧
      count "<ol>" (opportunityHTML opp)
        = (if nonEmptyList opp.screeningQuestions = true then 1 else 0) ∧
      count "<a " (opportunityHTML opp)
        = (if truthy opp.downloadFile = true then 1 else 0) ∧
      count "<li>" (opportunityHTML opp)
        = (opp.benefits.getD []).length + (opp.screeningQuestions.getD []).length) ∧
    (∀ (parse : Parser) (net : Net) (w : World) (containerId : String)
        (opportunities : List OpportunityRecord),
      (getElementById w.page containerId).isSome = true →
      (fetchData "opportunities.json" net.opportunities w).1
        = Completion.normal (some opportunities) →
      (loadOpportunities parse net containerId w).1 = Completion.normal () ∧
      contentOf (loadOpportunities parse net containerId w).2.page containerId
        = some (join (opportunities.map opportunityHTML))) :=
  ⟨fun value hfield hne => background_in_card opp value hfield hne,
   fun value hfield hne => commitment_in_card opp value hfield hne,
   fun items hfield hne => benefits_in_card opp items hfield hne,
   fun items hfield hne => screening_in_card opp items hfield hne,
   fun value hfield hne => download_in_card opp value hfield hne,
   fun _ => rfl,
   fun h => ⟨count_background_opportunity opp h, count_commitment_opportunity opp h,
     count_benefits_opportunity opp h, count_ul_opportunity opp h,
     count_screening_opportunity opp h, count_ol_opportunity opp h,
     count_anchor_opportunity opp h, count_li_opportunity opp h⟩,
   fun parse net w containerId opportunities ht hf =>
     loadOpportunities_content parse net containerId w opportunities ht hf⟩

theorem plainField_none : plainField none := fun _ h => by cases h

theorem plainItems_none : plainItems none := fun _ h => by cases h

theorem plainItems_some (l : List String) (h : ∀ b ∈ l, plain b) : plainItems (some l) :=
  fun l' hl b hb => by
    cases hl
    exact h b hb

theorem plain_oppBare : PlainOpportunity oppBare :=
  ⟨by decide, by decide, by decide, plainField_none, plainField_none, plainItems_none,
    plainItems_none, plainField_none⟩

theorem plain_oppTwoBenefits : PlainOpportunity oppTwoBenefits :=
  ⟨by decide, by decide, by decide, plainField_none, plainField_none,
    plainItems_some ["X", "Y"] (by decide), plainItems_none, plainField_none⟩

/-- Witness of C6 (amended): without `benefits` the card has no benefits heading
and no list; with `benefits: ["X","Y"]` it has the heading once and exactly the
two items `X` then `Y`; a title with the character `<` does not keep the
background block out of the card. -/
theorem opportunity_blocks_witness :
    count "<h4>What You\x27ll Gain</h4>" (opportunityHTML oppBare) = 0 ∧
    count "<ul>" (opportunityHTML oppBare) = 0 ∧
    count "<li>" (opportunityHTML oppBare) = 0 ∧
    count "<h4>What You\x27ll Gain</h4>" (opportunityHTML oppTwoBenefits) = 1 ∧
    count "<li>" (opportunityHTML oppTwoBenefits) = 2 ∧
    (∃ pre post : String, opportunityHTML oppTwoBenefits
      = pre ++ ("\n                    <h4>What You\x27ll Gain</h4>\n                    <ul>\n                        "
        ++ "<li>X</li><li>Y</li>"
        ++ "\n                    </ul>\n                ") ++ post) ∧
    (∃ pre post : String, opportunityHTML oppShortStay
      = pre ++ ("\n                    <h4>Preferred Background</h4>\n                    <p>"
        ++ "Students"
        ++ "</p>\n                ") ++ post) :=
  ⟨((opportunity_blocks oppBare).2.2.2.2.2.2.1 plain_oppBare).2.2.1,
   ((opportunity_blocks oppBare).2.2.2.2.2.2.1 plain_oppBare).2.2.2.1,
   ((opportunity_blocks oppBare).2.2.2.2.2.2.1 plain_oppBare).2.2.2.2.2.2.2,
   ((opportunity_blocks oppTwoBenefits).2.2.2.2.2.2.1 plain_oppTwoBenefits).2.2.1,
   ((opportunity_blocks oppTwoBenefits).2.2.2.2.2.2.1 plain_oppTwoBenefits).2.2.2.2.2.2.2,
   (opportunity_blocks oppTwoBenefits).2.2.1 ["X", "Y"] rfl (by decide),
   (opportunity_blocks oppShortStay).1 "Students" rfl (by decide)⟩


end CISL
